import Mathlib

set_option maxRecDepth 100000
set_option maxHeartbeats 1000000

/-!
Verification of the `suqreme/meds` remedy-search service.

The development shallowly embeds the two handler implementations of the
repository — `src/api/simple.py` (FastAPI variant) and `src/api/index.py`
(`BaseHTTPRequestHandler` variant) — as executable Lean functions over
`List Char` models of Python strings, and proves the frozen specification
claims about chunking, extraction, search, response shape and identifiers.

Python strings are modelled as `List Char`; Python `int` as `Int` (or `Nat`
where the source value is provably non-negative); Python `None`-able strings
as `Option (List Char)`; JSON responses as a small `JsonVal` AST.
-/

namespace MedsVerify

/-- Model of a Python `str` as a list of characters. -/
abbrev PyStr := List Char

/-- Convert a Lean string literal into the `PyStr` model. -/
def pstr (s : String) : PyStr := s.toList

/-! ## Python string primitives -/

/-- The ASCII whitespace characters recognised by Python's `str.split()`,
`str.strip()` and `\s` (the sources only ever handle ASCII text). -/
def isPySpace (c : Char) : Bool :=
  c == ' ' || c == '\t' || c == '\n' || c == '\r' || c == Char.ofNat 11 || c == Char.ofNat 12

def isAsciiDigit (c : Char) : Bool := '0' ≤ c && c ≤ '9'

def isAsciiAlpha (c : Char) : Bool := ('a' ≤ c && c ≤ 'z') || ('A' ≤ c && c ≤ 'Z')

def isAsciiAlnum (c : Char) : Bool := isAsciiAlpha c || isAsciiDigit c

/-- Python's `str.lower()`; the repository only lowercases ASCII text. -/
def pyLower (s : PyStr) : PyStr := s.map Char.toLower

/-- Helper for `pySplit`: accumulate the current word (reversed). -/
def pySplitAux : PyStr → PyStr → List PyStr
  | [], acc => if acc.isEmpty then [] else [acc.reverse]
  | c :: rest, acc =>
    if isPySpace c then
      if acc.isEmpty then pySplitAux rest [] else acc.reverse :: pySplitAux rest []
    else pySplitAux rest (c :: acc)

/-- Python's `str.split()` with no argument: split on whitespace runs,
discarding empty tokens. -/
def pySplit (s : PyStr) : List PyStr := pySplitAux s []

/-- Helper for `pySplitChar`. -/
def pySplitCharAux (sep : Char) : PyStr → PyStr → List PyStr
  | [], acc => [acc.reverse]
  | c :: rest, acc =>
    if c == sep then acc.reverse :: pySplitCharAux sep rest []
    else pySplitCharAux sep rest (c :: acc)

/-- Python's `str.split(sep)` for a single-character separator: keeps empty
pieces (`"".split(".") == [""]`). -/
def pySplitChar (sep : Char) (s : PyStr) : List PyStr := pySplitCharAux sep s []

/-- Helper for `pySplitLines`. -/
def pySplitLinesAux : PyStr → PyStr → List PyStr
  | [], acc => if acc.isEmpty then [] else [acc.reverse]
  | '\r' :: '\n' :: rest, acc => acc.reverse :: pySplitLinesAux rest []
  | '\n' :: rest, acc => acc.reverse :: pySplitLinesAux rest []
  | '\r' :: rest, acc => acc.reverse :: pySplitLinesAux rest []
  | c :: rest, acc => pySplitLinesAux rest (c :: acc)

/-- Python's `str.splitlines()` restricted to the `\n`, `\r`, `\r\n`
terminators (the only ones occurring in the repository's data). -/
def pySplitLines (s : PyStr) : List PyStr := pySplitLinesAux s []

/-- Python's `str.strip()` with no argument (whitespace both ends). -/
def pyStrip (s : PyStr) : PyStr :=
  ((s.dropWhile isPySpace).reverse.dropWhile isPySpace).reverse

/-- Python's `needle in haystack` substring test. -/
def isSubstr (n : PyStr) : PyStr → Bool
  | [] => n.isEmpty
  | c :: t => List.isPrefixOf n (c :: t) || isSubstr n t

/-- Python's `str.count(sub)`: count non-overlapping occurrences scanning
left to right (`"aaa".count("aa") == 1`; `s.count("") == len(s)+1`).  The
fuel only bounds the recursion (each step shortens the text, so
`length`-much fuel is never exhausted). -/
def countOccsAux (n : PyStr) : Nat → PyStr → Nat
  | _, [] => if n.isEmpty then 1 else 0
  | 0, _ :: _ => 0
  | fuel + 1, c :: t =>
    if n.isEmpty then 1 + countOccsAux n fuel t
    else if List.isPrefixOf n (c :: t) then
      1 + countOccsAux n fuel (t.drop (n.length - 1))
    else countOccsAux n fuel t

def countOccs (n h : PyStr) : Nat := countOccsAux n h.length h

/-- Python list/str slicing `xs[:n]` for an `int` bound: a negative bound
drops `|n|` elements from the end. -/
def pyTake (n : Int) (xs : List α) : List α :=
  if 0 ≤ n then xs.take n.toNat else xs.take (xs.length - (-n).toNat)

/-- `" ".join(words)`. -/
def joinWords : List PyStr → PyStr
  | [] => []
  | [w] => w
  | w :: ws => w ++ ' ' :: joinWords ws

/-- Characters kept verbatim by `urllib.parse.quote_plus`. -/
def quoteSafe (c : Char) : Bool :=
  isAsciiAlnum c || c == '_' || c == '.' || c == '-' || c == '~'

def hexDigitUpper (n : Nat) : Char :=
  if n < 10 then Char.ofNat ('0'.toNat + n) else Char.ofNat ('A'.toNat + (n - 10))

/-- UTF-8 encoding of one character (Python `str.encode()`). -/
def charUtf8 (c : Char) : List Nat :=
  let n := c.toNat
  if n < 0x80 then [n]
  else if n < 0x800 then [0xC0 + n / 0x40, 0x80 + n % 0x40]
  else if n < 0x10000 then
    [0xE0 + n / 0x1000, 0x80 + (n / 0x40) % 0x40, 0x80 + n % 0x40]
  else
    [0xF0 + n / 0x40000, 0x80 + (n / 0x1000) % 0x40, 0x80 + (n / 0x40) % 0x40, 0x80 + n % 0x40]

/-- `str.encode("utf-8")` as a byte (0..255) list. -/
def utf8Encode (s : PyStr) : List Nat := s.flatMap charUtf8

/-- `urllib.parse.quote_plus(s)`: spaces become `+`, unreserved characters
are kept, everything else is percent-encoded from its UTF-8 bytes. -/
def pyQuotePlus (s : PyStr) : PyStr :=
  s.flatMap fun c =>
    if c == ' ' then ['+']
    else if quoteSafe c then [c]
    else (charUtf8 c).flatMap fun b => ['%', hexDigitUpper (b / 16), hexDigitUpper (b % 16)]

/-- Helper for `pyTitle`: the flag records whether the previous character was
alphabetic. -/
def pyTitleAux : Bool → PyStr → PyStr
  | _, [] => []
  | prevAlpha, c :: t =>
    let c' := if isAsciiAlpha c then (if prevAlpha then c.toLower else c.toUpper) else c
    c' :: pyTitleAux (isAsciiAlpha c) t

/-- Python's `str.title()` (ASCII behaviour): uppercase a letter that follows
a non-letter, lowercase the rest. -/
def pyTitle (s : PyStr) : PyStr := pyTitleAux false s

/-- Python's `str(n)` for a non-negative integer. -/
def natStr (n : Nat) : PyStr := (toString n).toList

/-! ## Basic lemmas about the string primitives -/

theorem pySplitAux_words_clean (s : PyStr) (acc : PyStr)
    (hacc : ∀ c ∈ acc, isPySpace c = false) :
    ∀ w ∈ pySplitAux s acc, w ≠ [] ∧ ∀ c ∈ w, isPySpace c = false := by
  induction s generalizing acc with
  | nil =>
    intro w hw
    simp only [pySplitAux] at hw
    split at hw
    · simp at hw
    · rename_i hne
      simp only [List.mem_singleton] at hw
      subst hw
      refine ⟨by simpa [List.isEmpty_iff] using hne, ?_⟩
      intro c hc
      exact hacc c (List.mem_reverse.mp hc)
  | cons c t ih =>
    intro w hw
    simp only [pySplitAux] at hw
    split at hw
    · split at hw
      · exact ih [] (by simp) w hw
      · rename_i hne
        rcases List.mem_cons.mp hw with h | h
        · subst h
          refine ⟨by simpa [List.isEmpty_iff] using hne, ?_⟩
          intro c' hc'
          exact hacc c' (List.mem_reverse.mp hc')
        · exact ih [] (by simp) w h
    · rename_i hcsp
      refine ih (c :: acc) ?_ w hw
      intro c' hc'
      rcases List.mem_cons.mp hc' with h | h
      · subst h; simpa using hcsp
      · exact hacc c' h

/-- Every token produced by `pySplit` is non-empty and whitespace-free. -/
theorem pySplit_words_clean (s : PyStr) :
    ∀ w ∈ pySplit s, w ≠ [] ∧ ∀ c ∈ w, isPySpace c = false :=
  pySplitAux_words_clean s [] (by simp)

/-! ## MD5 (`hashlib.md5(...).hexdigest()`)

A complete executable RFC 1321 implementation over `Nat` words reduced
modulo `2^32`; validated below against the RFC's own test vectors. -/

namespace MD5

/-- 32-bit truncation. -/
def w32 (n : Nat) : Nat := n % 4294967296

/-- 32-bit left rotation. -/
def rotl (x s : Nat) : Nat := w32 (x <<< s) ||| (w32 x >>> (32 - s))

/-- 32-bit bitwise complement. -/
def compl32 (x : Nat) : Nat := Nat.xor (w32 x) 4294967295

/-- The per-step sine-derived constants of RFC 1321. -/
def K : List Nat :=
  [0xd76aa478, 0xe8c7b756, 0x242070db, 0xc1bdceee,
   0xf57c0faf, 0x4787c62a, 0xa8304613, 0xfd469501,
   0x698098d8, 0x8b44f7af, 0xffff5bb1, 0x895cd7be,
   0x6b901122, 0xfd987193, 0xa679438e, 0x49b40821,
   0xf61e2562, 0xc040b340, 0x265e5a51, 0xe9b6c7aa,
   0xd62f105d, 0x02441453, 0xd8a1e681, 0xe7d3fbc8,
   0x21e1cde6, 0xc33707d6, 0xf4d50d87, 0x455a14ed,
   0xa9e3e905, 0xfcefa3f8, 0x676f02d9, 0x8d2a4c8a,
   0xfffa3942, 0x8771f681, 0x6d9d6122, 0xfde5380c,
   0xa4beea44, 0x4bdecfa9, 0xf6bb4b60, 0xbebfbc70,
   0x289b7ec6, 0xeaa127fa, 0xd4ef3085, 0x04881d05,
   0xd9d4d039, 0xe6db99e5, 0x1fa27cf8, 0xc4ac5665,
   0xf4292244, 0x432aff97, 0xab9423a7, 0xfc93a039,
   0x655b59c3, 0x8f0ccc92, 0xffeff47d, 0x85845dd1,
   0x6fa87e4f, 0xfe2ce6e0, 0xa3014314, 0x4e0811a1,
   0xf7537e82, 0xbd3af235, 0x2ad7d2bb, 0xeb86d391]

/-- The per-step left-rotation amounts of RFC 1321. -/
def S : List Nat :=
  [7, 12, 17, 22, 7, 12, 17, 22, 7, 12, 17, 22, 7, 12, 17, 22,
   5, 9, 14, 20, 5, 9, 14, 20, 5, 9, 14, 20, 5, 9, 14, 20,
   4, 11, 16, 23, 4, 11, 16, 23, 4, 11, 16, 23, 4, 11, 16, 23,
   6, 10, 15, 21, 6, 10, 15, 21, 6, 10, 15, 21, 6, 10, 15, 21]

/-- Round mixing function and message-word index for step `i`. -/
def mix (i b c d : Nat) : Nat × Nat :=
  if i < 16 then ((b &&& c) ||| (compl32 b &&& d), i)
  else if i < 32 then ((d &&& b) ||| (compl32 d &&& c), (5 * i + 1) % 16)
  else if i < 48 then (Nat.xor (Nat.xor b c) d, (3 * i + 5) % 16)
  else (Nat.xor c (b ||| compl32 d), (7 * i) % 16)

/-- One of the 64 steps of the compression function. -/
def stepFn (m : List Nat) (st : Nat × Nat × Nat × Nat) (i : Nat) :
    Nat × Nat × Nat × Nat :=
  let (a, b, c, d) := st
  let (f, g) := mix i b c d
  let rotated := rotl (w32 (a + f + (K.getD i 0) + m.getD g 0)) (S.getD i 0)
  (d, w32 (b + rotated), b, c)

/-- Compress one 64-byte block (given as 16 little-endian words) into the
running state. -/
def compress (st : Nat × Nat × Nat × Nat) (m : List Nat) :
    Nat × Nat × Nat × Nat :=
  let (a0, b0, c0, d0) := st
  let (a, b, c, d) := (List.range 64).foldl (stepFn m) (a0, b0, c0, d0)
  (w32 (a0 + a), w32 (b0 + b), w32 (c0 + c), w32 (d0 + d))

/-- MD5 padding: a `0x80` byte, zeros to 56 mod 64, then the original bit
length as a 64-bit little-endian quantity. -/
def padded (msg : List Nat) : List Nat :=
  let len := msg.length
  let zeros := (55 + 64 - len % 64) % 64
  let bitLen := 8 * len
  msg ++ [0x80] ++ List.replicate zeros 0 ++
    (List.range 8).map fun i => (bitLen >>> (8 * i)) % 256

/-- Convert one 64-byte block into 16 little-endian words. -/
def blockWords (block : List Nat) : List Nat :=
  (List.range 16).map fun i =>
    block.getD (4 * i) 0 + 256 * block.getD (4 * i + 1) 0 +
      65536 * block.getD (4 * i + 2) 0 + 16777216 * block.getD (4 * i + 3) 0

/-- Group bytes into 16-word blocks; `acc` holds the current partial block
reversed (the padded input length is always a multiple of 64). -/
def toBlocksAux : List Nat → List Nat → List (List Nat)
  | [], acc => if acc.isEmpty then [] else [blockWords acc.reverse]
  | b :: bs, acc =>
    if acc.length == 63 then blockWords (b :: acc).reverse :: toBlocksAux bs []
    else toBlocksAux bs (b :: acc)

def toBlocks (bs : List Nat) : List (List Nat) := toBlocksAux bs []

def hexDigitLower (n : Nat) : Char :=
  if n < 10 then Char.ofNat ('0'.toNat + n) else Char.ofNat ('a'.toNat + (n - 10))

/-- Render one state word as 8 lowercase hex characters, little-endian byte
order first (as `hexdigest` does). -/
def wordHex (x : Nat) : PyStr :=
  (List.range 4).flatMap fun i =>
    let b := (x >>> (8 * i)) % 256
    [hexDigitLower (b / 16), hexDigitLower (b % 16)]

/-- `hashlib.md5(s.encode()).hexdigest()` on the `PyStr` model. -/
def md5Hex (s : PyStr) : PyStr :=
  let bytes := utf8Encode s
  let (a, b, c, d) :=
    (toBlocks (padded bytes)).foldl compress
      (0x67452301, 0xefcdab89, 0x98badcfe, 0x10325476)
  wordHex a ++ wordHex b ++ wordHex c ++ wordHex d

end MD5

/-- Sanity: the implementation reproduces RFC 1321's `MD5("abc")`. -/
theorem md5Hex_rfc_abc :
    MD5.md5Hex (pstr "abc") = pstr "900150983cd24fb0d6963f7d28e17f72" := by rfl

/-- Sanity: RFC 1321's `MD5("message digest")`. -/
theorem md5Hex_rfc_message_digest :
    MD5.md5Hex (pstr "message digest") = pstr "f96b697d7cb7938d525a2f31aaf161d0" := by rfl

/-- Sanity: a two-block (100-byte) input. -/
theorem md5Hex_two_blocks :
    MD5.md5Hex (List.replicate 100 'x') = pstr "aed563ecafb4bcc5654c597a421547b2" := by rfl

/-! ## The shared ingredient-extraction regular expressions

`simple.py` and `index.py` define the identical `AMOUNT_RE`, `UNIT_RE` and
`ING_LINE` patterns (and the same `BULLET_RE` shape, with different literal
bullet characters).  The matchers below implement exactly those patterns,
with Python's ordered-alternation and backtracking semantics specialised to
these concrete regexes. -/

/-- The `UNIT_RE` alternatives in source order, with `drops?` expanded to the
greedy order `drops`, `drop`. -/
def unitAlts : List PyStr :=
  [pstr "tsp", pstr "tbsp", pstr "teaspoon", pstr "tablespoon", pstr "cup",
   pstr "cups", pstr "ml", pstr "l", pstr "g", pstr "kg", pstr "ounce",
   pstr "oz", pstr "inches", pstr "slice", pstr "slices", pstr "piece",
   pstr "pieces", pstr "drops", pstr "drop", pstr "pinch", pstr "handful"]

/-- `re.search(AMOUNT_RE, ln)`: the leftmost position with a digit wins, and
there the first alternative `\d+(?:\.\d+)?` always matches (so `"1/2"` yields
`"1"`). -/
def amountSearch : PyStr → Option PyStr
  | [] => none
  | c :: t =>
    if isAsciiDigit c then
      let d := (c :: t).takeWhile isAsciiDigit
      some (match (c :: t).drop d.length with
        | '.' :: r2 =>
          let f := r2.takeWhile isAsciiDigit
          if f.isEmpty then d else d ++ '.' :: f
        | _ => d)
    else amountSearch t

/-- `re.search(UNIT_RE, ln, re.IGNORECASE)`: leftmost position, first
alternative in source order; returns the original-case slice. -/
def unitSearch : PyStr → Option PyStr
  | [] => none
  | c :: t =>
    match unitAlts.find?
        (fun u => List.isPrefixOf u (((c :: t).take u.length).map Char.toLower)) with
    | some u => some ((c :: t).take u.length)
    | none => unitSearch t

/-- Characters admitted by the `[\w\s\-']` class of `ING_LINE` (ASCII). -/
def isNameChar (c : Char) : Bool :=
  isAsciiAlnum c || c == '_' || isPySpace c || c == '-' || c == Char.ofNat 39

/-- The capture group `([A-Za-z][\w\s\-']+)` of `ING_LINE`, greedy. -/
def nameMatch : PyStr → Option PyStr
  | [] => none
  | c :: t =>
    if isAsciiAlpha c then
      let run := t.takeWhile isNameChar
      if run.isEmpty then none else some (c :: run)
    else none

/-- Amount candidates of `ING_LINE` in backtracking order: the greedy
`\d+(?:\.\d+)?` first, then `\d+/\d+`.  Shorter digit prefixes never help
because the continuation `\s*(?:UNIT)?\s+` cannot start with a digit or a
dot, so they are not generated. -/
def amountCandidates (s : PyStr) : List PyStr :=
  let d := s.takeWhile isAsciiDigit
  if d.isEmpty then []
  else
    let rest := s.drop d.length
    let c1 := match rest with
      | '.' :: r2 =>
        let f := r2.takeWhile isAsciiDigit
        if f.isEmpty then d else d ++ '.' :: f
      | _ => d
    match rest with
    | '/' :: r2 =>
      let f := r2.takeWhile isAsciiDigit
      if f.isEmpty then [c1] else [c1, d ++ '/' :: f]
    | _ => [c1]

/-- The `\s*(?:UNIT_RE)?\s+` continuation of `ING_LINE` after an amount,
followed by the name group.  `\s*` must consume the whole whitespace run for
a unit to match (units start with a letter); if every unit alternative fails,
the optional group is skipped and `\s+` requires at least one whitespace. -/
def afterAmount (s : PyStr) : Option PyStr :=
  let w := s.takeWhile isPySpace
  let t1 := s.drop w.length
  match unitAlts.findSome? (fun u =>
      if List.isPrefixOf u ((t1.take u.length).map Char.toLower) then
        let t2 := t1.drop u.length
        let w2 := t2.takeWhile isPySpace
        if w2.isEmpty then none else nameMatch (t2.drop w2.length)
      else none) with
  | some nm => some nm
  | none => if w.isEmpty then none else nameMatch t1

/-- `ING_LINE.match(ln)`: leading `\s*`, optional amount/unit prefix (tried
greedily first), then the name capture group; returns `group(1)`. -/
def ingLineMatch (ln : PyStr) : Option PyStr :=
  let s1 := ln.dropWhile isPySpace
  match (amountCandidates s1).findSome? (fun a => afterAmount (s1.drop a.length)) with
  | some nm => some nm
  | none => nameMatch s1

/-- `BULLET_RE` = `^\s*(?:[-•*]|\d+\.)\s+` (with the literal bullet set as a
parameter: the two source files embed different characters).  Returns the
length of the match at the start of the line, if any. -/
def bulletMatchLen (bullets : List Char) (s : PyStr) : Option Nat :=
  let w := s.takeWhile isPySpace
  match s.drop w.length with
  | [] => none
  | c :: t2 =>
    if bullets.contains c then
      let w2 := t2.takeWhile isPySpace
      if w2.isEmpty then none else some (w.length + 1 + w2.length)
    else
      let d := (c :: t2).takeWhile isAsciiDigit
      if d.isEmpty then none
      else match (c :: t2).drop d.length with
        | '.' :: t3 =>
          let w3 := t3.takeWhile isPySpace
          if w3.isEmpty then none else some (w.length + d.length + 1 + w3.length)
        | _ => none

/-- `re.sub(BULLET_RE, "", ln)`: the pattern is anchored at the start, so at
most one occurrence is removed. -/
def stripBullet (bullets : List Char) (ln : PyStr) : PyStr :=
  match bulletMatchLen bullets ln with
  | some n => ln.drop n
  | none => ln

/-- The bullet characters of `index.py`'s `BULLET_RE`: `[-•*]`. -/
def indexBullets : List Char := ['-', Char.ofNat 0x2022, '*']

/-- The bullet characters of `simple.py`'s `BULLET_RE`: the source file holds
the mojibake sequence `‚Ä¢` (U+201A, U+00C4, U+00A2) instead of `•`. -/
def simpleBullets : List Char :=
  ['-', Char.ofNat 0x201A, Char.ofNat 0xC4, Char.ofNat 0xA2, '*']

/-! ## The shared heuristic line parser

The line-classification loop of `extract_ingredients_and_steps` is verbatim
identical in `simple.py` (lines 63–93) and `index.py` (lines 177–207), apart
from the bullet-character set; it is defined once here, parameterised by the
bullets. -/

/-- An ingredient dict `{name, amount, unit, raw}`; `none` models `None`. -/
structure Ingredient where
  name : PyStr
  amount : Option PyStr
  unit : Option PyStr
  raw : PyStr
deriving DecidableEq, Repr

inductive ParseMode
  | noMode
  | ingMode
  | stepMode
deriving DecidableEq

/-- The section-header keywords that switch the parser into step mode. -/
def methodKeywords : List PyStr :=
  [pstr "method", pstr "directions", pstr "instructions", pstr "preparation", pstr "steps"]

/-- The unit substrings that, together with a bullet, mark an
ingredient-like line. -/
def bulletUnitHints : List PyStr :=
  [pstr "tsp", pstr "tbsp", pstr "cup", pstr "ml", pstr "g", pstr "oz"]

/-- The mode-and-append loop over the stripped non-empty lines. -/
def basicParseLoop (bullets : List Char) :
    List PyStr → ParseMode → List Ingredient × List PyStr
  | [], _ => ([], [])
  | ln :: rest, mode =>
    let low := pyLower ln
    if isSubstr (pstr "ingredient") low then basicParseLoop bullets rest .ingMode
    else if methodKeywords.any (fun k => isSubstr k low) then
      basicParseLoop bullets rest .stepMode
    else
      let stepCase : List Ingredient × List PyStr :=
        if (bulletMatchLen bullets ln).isSome ∨ mode = .stepMode then
          let (ings, steps) := basicParseLoop bullets rest mode
          (ings, stripBullet bullets ln :: steps)
        else basicParseLoop bullets rest mode
      if mode = .ingMode ∨
          ((bulletMatchLen bullets ln).isSome ∧
            bulletUnitHints.any (fun u => isSubstr u low)) then
        match ingLineMatch ln with
        | some nm =>
          let ing : Ingredient :=
            { name := pyStrip nm
              amount := amountSearch ln
              unit := unitSearch ln
              raw := ln }
          let (ings, steps) := basicParseLoop bullets rest mode
          (ing :: ings, steps)
        | none => stepCase
      else stepCase

/-- Lines 63–64 / 177–178: strip, drop empties, then run the loop. -/
def basicParse (bullets : List Char) (snippet : PyStr) :
    List Ingredient × List PyStr :=
  let lines := ((pySplitLines snippet).map pyStrip).filter (fun l => !l.isEmpty)
  basicParseLoop bullets lines .noMode

/-- The extraction result dict `{"ingredients", "instructions"}`. -/
structure Extracted where
  ingredients : List Ingredient
  instructions : List PyStr
deriving DecidableEq, Repr

/-! ## `simple.py` (the FastAPI variant) -/

namespace SimpleApi

/-- A chunk as built by `upload_epub`: `{chapter, pos, text}`. -/
structure SChunk where
  chapter : PyStr
  pos : Nat
  text : PyStr
deriving DecidableEq, Repr

/-- Maximal runs of characters satisfying `keep`. -/
def tokensWhere (keep : Char → Bool) : PyStr → PyStr → List PyStr
  | [], acc => if acc.isEmpty then [] else [acc.reverse]
  | c :: t, acc =>
    if keep c then tokensWhere keep t (c :: acc)
    else if acc.isEmpty then tokensWhere keep t []
    else acc.reverse :: tokensWhere keep t []

/-- Modelled from the `python-slugify` dependency (ASCII behaviour): lowercase,
join the alphanumeric runs with hyphens. -/
def pySlugify (s : PyStr) : PyStr :=
  List.intercalate ['-'] (tokensWhere isAsciiAlnum (pyLower s) [])

/-- Lines 96–102: deduplicate ingredients by slugified name, keeping the
first occurrence. -/
def dedupBySlug : List Ingredient → List PyStr → List Ingredient
  | [], _ => []
  | ing :: rest, seen =>
    let key := pyLower (pySlugify ing.name)
    if seen.contains key then dedupBySlug rest seen
    else ing :: dedupBySlug rest (key :: seen)

/-- `simple.py` lines 61–104: `extract_ingredients_and_steps`. -/
def extract_ingredients_and_steps (snippet : PyStr) : Extracted :=
  let parsed := basicParse simpleBullets snippet
  { ingredients := dedupBySlug parsed.1 []
    instructions := parsed.2.take 12 }

end SimpleApi

/-- The word-window loop shared verbatim by `simple.py`'s `chunk_words`
(lines 51–58) and the fallback branch of `index.py`'s (lines 159–168).
`fuel` bounds the iteration count (the Python loop does not terminate when
`max_words ≤ overlap`; with `overlap < max_words` the fuel is never
exhausted, see `slideAux_eq_of_fuel`). -/
def slideAux (ws : List PyStr) (maxWords overlap : Nat) : Nat → Nat → List PyStr
  | 0, _ => []
  | fuel + 1, i =>
    if i < ws.length then
      let endIdx := min (i + maxWords) ws.length
      let piece := joinWords ((ws.drop i).take (endIdx - i))
      if ws.length ≤ endIdx then [piece]
      else piece :: slideAux ws maxWords overlap fuel (i + (maxWords - overlap))
    else []

def slideChunks (ws : List PyStr) (maxWords overlap : Nat) : List PyStr :=
  slideAux ws maxWords overlap (ws.length + 1) 0

namespace SimpleApi

/-- `simple.py` lines 49–59: `chunk_words`. -/
def chunk_words (text : PyStr) (maxWords overlap : Nat) : List PyStr :=
  slideChunks (pySplit text) maxWords overlap

/-- The five bonus keywords of the scoring loop (line 121). -/
def remedyKw5 : List PyStr :=
  [pstr "remedy", pstr "treatment", pstr "cure", pstr "heal", pstr "recipe"]

/-- Lines 112–126: the relevance score of one chunk text.  `queryWords` is
the deduplicated word set; iteration order does not affect the sum. -/
def chunkScore (queryWords : List PyStr) (text : PyStr) : Nat :=
  let tl := pyLower text
  let base := (queryWords.map fun w =>
    if isSubstr w tl then countOccs w tl else 0).sum
  let b1 := if remedyKw5.any (fun k => isSubstr k tl) then 5 else 0
  let b2 := if isSubstr (pstr "ingredient") tl then 3 else 0
  base + b1 + b2

end SimpleApi

/-- Stable descending insertion by the numeric key: `x` is placed before the
first element with a strictly smaller key, so equal keys keep their original
order — exactly the behaviour of Python's stable
`list.sort(key=..., reverse=True)` (a stable sort's output is unique). -/
def insertDesc (x : α × Nat) : List (α × Nat) → List (α × Nat)
  | [] => [x]
  | y :: ys => if y.2 < x.2 then x :: y :: ys else y :: insertDesc x ys

def insertSortDesc : List (α × Nat) → List (α × Nat)
  | [] => []
  | x :: xs => insertDesc x (insertSortDesc xs)

namespace SimpleApi

/-- `simple.py` lines 106–136: `simple_text_search`. -/
def simple_text_search (books : List SChunk) (query : PyStr) (maxResults : Int) :
    List SChunk :=
  let qws := (pySplit (pyLower query)).eraseDups
  let scored := books.filterMap fun c =>
    let s := chunkScore qws c.text
    if 0 < s then some (c, s) else none
  (pyTake maxResults (insertSortDesc scored)).map Prod.fst

/-- An ingredient dict after `ing_copy["link"] = ...`; `link := none` models a
dict without the `"link"` key (used by `index.py`'s basic-remedy path). -/
structure LinkedIngredient where
  name : PyStr
  amount : Option PyStr
  unit : Option PyStr
  raw : PyStr
  link : Option PyStr
deriving DecidableEq, Repr

/-- `simple.py` lines 138–141: `affiliate_search_url`. -/
def affiliate_search_url (query tag : PyStr) : PyStr :=
  pstr "https://www.amazon.com/s?k=" ++ pyQuotePlus query ++
    pstr "&i=grocery&tag=" ++ tag

/-- A remedy dict as assembled by `simple.py`'s `/api/search` handler. -/
structure SimpleRemedy where
  id : PyStr
  title : PyStr
  summary : Option PyStr
  ingredients : List LinkedIngredient
  instructions : List PyStr
  srcChapter : PyStr
  srcPos : Nat
deriving DecidableEq, Repr

/-- The gate keywords of line 377 (`"ingredient"/"ingredients"`). -/
def gateIngredientKw : List PyStr := [pstr "ingredient", pstr "ingredients"]

/-- The gate keywords of line 378 (note the trailing space in `"for "`). -/
def gateRemedyKw : List PyStr :=
  [pstr "remedy", pstr "treatment", pstr "recipe", pstr "for ", pstr "cure", pstr "heal"]

/-- Lines 374–408: the remedy-building loop with its `len(remedies) >= 3`
break. -/
def searchLoop (tag : PyStr) : List SChunk → List SimpleRemedy → List SimpleRemedy
  | [], acc => acc
  | c :: rest, acc =>
    let tl := pyLower c.text
    if gateIngredientKw.any (fun k => isSubstr k tl) ∧
        gateRemedyKw.any (fun k => isSubstr k tl) then
      let ex := extract_ingredients_and_steps c.text
      if ex.ingredients.isEmpty then searchLoop tag rest acc
      else
        let title0 := pyStrip ((pySplitChar '.' (c.text.take 150)).headD [])
        let title := if 100 < title0.length then title0.take 100 ++ pstr "..." else title0
        let rid := (MD5.md5Hex (c.chapter ++ natStr c.pos)).take 12
        let ings := ex.ingredients.map fun g =>
          { name := g.name, amount := g.amount, unit := g.unit, raw := g.raw
            link := some (affiliate_search_url g.name tag) : LinkedIngredient }
        let r : SimpleRemedy :=
          { id := rid, title := title, summary := none, ingredients := ings
            instructions := ex.instructions, srcChapter := c.chapter, srcPos := c.pos }
        let acc' := acc ++ [r]
        if 3 ≤ acc'.length then acc' else searchLoop tag rest acc'
    else searchLoop tag rest acc

/-- The observable outcome of the FastAPI handler: a `200` JSON success, or
an `HTTPException` with its status code and detail message. -/
inductive SimpleResponse
  | success (remedies : List SimpleRemedy)
  | httpError (status : Nat) (detail : PyStr)
deriving DecidableEq, Repr

/-- `simple.py` lines 362–413: the `/api/search` handler.  The `except`
branch raising a 500 is unreachable in the model because the loop body is
total and pure. -/
def search (books : List SChunk) (q : PyStr) (k : Int) (tag : PyStr) :
    SimpleResponse :=
  if books.isEmpty then
    .httpError 400 (pstr "No data available. Upload an EPUB file first.")
  else
    let matching := simple_text_search books q (k * 2)
    .success (searchLoop tag matching [])

end SimpleApi

/-! ## `index.py` (the `BaseHTTPRequestHandler` variant) -/

namespace IndexApi

/-- A chunk as built by `load_epub_books`: `{book, chapter, pos, text}`. -/
structure IChunk where
  book : PyStr
  chapter : PyStr
  pos : Nat
  text : PyStr
deriving DecidableEq, Repr

/-- The keyword alternation of the section pattern of `chunk_words`
(line 134/136): `(?:cancer|disease|condition|remedy)`. -/
def sectionKw : List PyStr :=
  [pstr "cancer", pstr "disease", pstr "condition", pstr "remedy"]

/-- Match `\d+\.\s+[A-Z][^.]*(?:cancer|disease|condition|remedy)[^.]*` (with
`re.IGNORECASE`) at the start of `s`; returns the greedy match length.  The
greedy trailing `[^.]*` always extends to just before the next dot (or the
end), and the match succeeds iff one of the keywords occurs case-insensitively
in the non-dot run following the first letter. -/
def matchSectionAt (s : PyStr) : Option Nat :=
  let d := s.takeWhile isAsciiDigit
  if d.isEmpty then none
  else match s.drop d.length with
    | '.' :: t1 =>
      let w := t1.takeWhile isPySpace
      if w.isEmpty then none
      else match t1.drop w.length with
        | c :: t2 =>
          if isAsciiAlpha c then
            let run := t2.takeWhile (fun ch => ch ≠ '.')
            if sectionKw.any (fun k => isSubstr k (pyLower run)) then
              some (d.length + 1 + w.length + 1 + run.length)
            else none
          else none
        | [] => none
    | _ => none

/-- `re.search` of the section pattern (line 134): the trailing `[^.]*` of
the split pattern does not affect match existence. -/
def sectionFound : PyStr → Bool
  | [] => false
  | c :: t => (matchSectionAt (c :: t)).isSome || sectionFound t

/-- `re.split` with the capturing section pattern (line 136): pieces between
matches interleaved with the matched groups.  Every match consumes at least
four characters, so `s.length + 1` fuel suffices. -/
def splitSectionsAux : Nat → PyStr → PyStr → List PyStr
  | _, [], acc => [acc.reverse]
  | 0, s, acc => [acc.reverse ++ s]
  | fuel + 1, c :: t, acc =>
    match matchSectionAt (c :: t) with
    | some n => acc.reverse :: (c :: t).take n :: splitSectionsAux fuel ((c :: t).drop n) []
    | none => splitSectionsAux fuel t (c :: acc)

def sectionSplit (s : PyStr) : List PyStr := splitSectionsAux (s.length + 1) s []

/-- The `for i in range(1, len(sections), 2)` pairing of lines 139–142: the
group at each odd index with the following piece. -/
def sectionPairs : List PyStr → List (PyStr × PyStr)
  | _pre :: title :: content :: rest => (title, content) :: sectionPairs (content :: rest)
  | _ => []

/-- Python's `range(start, stop, step)` for a positive step (the call site
uses `max_words - 50`; Python raises for step 0, which the defaults never
produce — modelled as empty). -/
def pyRangeStep (start stop step : Nat) : List Nat :=
  if step = 0 then []
  else (List.range ((stop - start + step - 1) / step)).map fun j => start + j * step

/-- Lines 141–152: assemble the chunk(s) of one `(title, content)` pair. -/
def sectionChunksOf (maxWords : Nat) (p : PyStr × PyStr) : List PyStr :=
  let title := pyStrip p.1
  let content := pyStrip p.2
  let full := title ++ [' '] ++ content
  if maxWords < (pySplit full).length then
    let cws := pySplit content
    (pyRangeStep 0 cws.length (maxWords - 50)).map fun j =>
      title ++ [' '] ++ joinWords ((cws.drop j).take (maxWords - 50))
  else [full]

/-- `index.py` lines 130–170: `chunk_words` (section-based splitting when the
numbered-section pattern matches, otherwise the shared word-window loop). -/
def chunk_words (text : PyStr) (maxWords overlap : Nat) : List PyStr :=
  if sectionFound text then
    let chunks := ((sectionPairs (sectionSplit text)).map (sectionChunksOf maxWords)).flatten
    if chunks.isEmpty then slideChunks (pySplit text) maxWords overlap else chunks
  else slideChunks (pySplit text) maxWords overlap

/-- `index.py` lines 104–124: the ten canned sample chunks. -/
def sampleBooksData : List IChunk :=
  [{ book := pstr "Sample Book 1", chapter := pstr "Digestive Issues", pos := 0,
     text := pstr "Ginger remedy for nausea and morning sickness. Ingredients: 1 tsp fresh ginger root, 1 cup hot water, honey to taste. Instructions: Peel and slice fresh ginger. Steep in hot water for 10 minutes. Add honey and drink warm. Effective for motion sickness and pregnancy nausea." },
   { book := pstr "Sample Book 1", chapter := pstr "Respiratory Health", pos := 0,
     text := pstr "Honey and lemon for sore throat and cough. Ingredients: 2 tbsp raw honey, 1 fresh lemon juiced, 1 cup warm water, pinch of salt. Instructions: Mix honey and lemon juice in warm water. Add salt and stir. Sip slowly throughout the day. Soothes throat irritation." },
   { book := pstr "Sample Book 1", chapter := pstr "Pain Management", pos := 0,
     text := pstr "Turmeric paste for joint pain and inflammation. Ingredients: 2 tsp turmeric powder, coconut oil to make paste, black pepper pinch. Instructions: Mix turmeric with enough coconut oil to form thick paste. Add black pepper. Apply to affected area and cover with cloth. Leave for 30 minutes." },
   { book := pstr "Sample Book 2", chapter := pstr "Sleep Disorders", pos := 0,
     text := pstr "Chamomile tea for insomnia and anxiety. Ingredients: 1 tbsp dried chamomile flowers, 1 cup boiling water, honey optional. Instructions: Pour boiling water over chamomile flowers. Steep covered for 15 minutes. Strain and add honey if desired. Drink 30 minutes before bedtime." },
   { book := pstr "Sample Book 2", chapter := pstr "Digestive Health", pos := 0,
     text := pstr "Apple cider vinegar for heartburn and acid reflux. Ingredients: 1 tbsp raw apple cider vinegar with mother, 1 cup warm water, honey to taste. Instructions: Mix apple cider vinegar in warm water. Add honey to improve taste. Drink 30 minutes before meals to prevent heartburn." },
   { book := pstr "Sample Book 2", chapter := pstr "Skin Conditions", pos := 0,
     text := pstr "Aloe vera gel for burns and skin irritation. Ingredients: Fresh aloe vera leaf, vitamin E oil optional. Instructions: Cut aloe leaf and extract clear gel. Apply directly to affected skin. For enhanced healing, mix with a few drops of vitamin E oil. Reapply 2-3 times daily." },
   { book := pstr "Sample Book 1", chapter := pstr "Headaches", pos := 0,
     text := pstr "Peppermint oil for headache relief. Ingredients: 2-3 drops pure peppermint essential oil, 1 tsp carrier oil like coconut oil. Instructions: Dilute peppermint oil with carrier oil. Massage gently onto temples and forehead. Avoid eye area. Also inhale directly for sinus headaches." },
   { book := pstr "Sample Book 2", chapter := pstr "Cold and Flu", pos := 0,
     text := pstr "Elderberry syrup for immune support. Ingredients: 1 cup dried elderberries, 3 cups water, 1 cup raw honey, 1 tsp ginger powder, cinnamon stick. Instructions: Simmer elderberries in water for 15 minutes. Strain and add honey while warm. Add spices. Take 1 tbsp daily during cold season." },
   { book := pstr "Sample Book 1", chapter := pstr "Circulation", pos := 0,
     text := pstr "Cayenne pepper for poor circulation. Ingredients: 1/4 tsp cayenne pepper powder, 1 cup warm water, lemon juice optional. Instructions: Mix cayenne pepper in warm water. Add lemon juice to taste. Drink slowly. Start with smaller amount and increase gradually. Improves blood flow." },
   { book := pstr "Sample Book 2", chapter := pstr "Detox", pos := 0,
     text := pstr "Dandelion root tea for liver detox. Ingredients: 1 tsp dried dandelion root, 1 cup boiling water, lemon slice. Instructions: Pour boiling water over dandelion root. Steep for 10 minutes. Strain and add lemon slice. Drink twice daily to support liver function and detoxification." }]

/-- `index.py` lines 21–128: `load_epub_books`.  The filesystem/EPUB outcome
is abstracted as `parsedChunks`: the chunk list accumulated by the parsing
`try` block (empty on `ImportError`, on missing files or when no document
yields parsable text).  The function returns the final value of the global
`books_data`: unchanged when already non-empty, otherwise the parsed chunks,
with the canned sample list as the empty-result fallback. -/
def load_epub_books (booksData parsedChunks : List IChunk) : List IChunk :=
  if !booksData.isEmpty then booksData
  else if parsedChunks.isEmpty then sampleBooksData
  else parsedChunks

/-! ### The AI-assisted extraction chain (lines 172–598)

The two OpenAI calls are external, non-deterministic services; each call is
modelled by an oracle describing its observable outcome, and the code that
consumes the outcome — the guards, the JSON-shape coercion, the filtering —
is embedded faithfully. -/

/-- The apostrophe character (used in a few table literals). -/
def apos : Char := Char.ofNat 39

/-- A parsed JSON ingredient item that passed the
`isinstance(ing, dict) and "name" in ing` guard of line 335 (items failing
the guard are skipped, which is the same as their absence). -/
structure AIIngItem where
  name : PyStr
  amount : Option PyStr
  unit : Option PyStr
deriving DecidableEq, Repr

/-- The observable outcome of the `ai_extract_ingredients` OpenAI call. -/
inductive AIExtractOutcome
  | noKey                                -- `OPENAI_API_KEY` unset (line 251)
  | apiError                             -- the client call raised (line 371)
  | parsedList (items : List AIIngItem)  -- `json.loads` returned a list
  | parsedOther                          -- `json.loads` returned a non-list
  | parseFail                            -- `json.JSONDecodeError` (line 368)
deriving DecidableEq

/-- The `non_remedy_items` set of lines 322–330 (a set literal: duplicates
collapse; only membership is used). -/
def non_remedy_items : List PyStr :=
  [pstr "soft drinks", pstr "liquor", pstr "tobacco", pstr "alcohol",
   pstr "cigarettes", pstr "smoking", pstr "white flour", pstr "white rice",
   pstr "cane sugar", pstr "processed sugar", pstr "refined sugar",
   pstr "sugar products", pstr "processed foods", pstr "junk food",
   pstr "fast food", pstr "soda", pstr "cola", pstr "beer", pstr "wine",
   pstr "coffee", pstr "caffeine", pstr "artificial sweeteners", pstr "msg",
   pstr "preservatives", pstr "meats", pstr "pork", pstr "beef",
   pstr "chicken", pstr "dairy", pstr "milk", pstr "cheese", pstr "butter",
   pstr "especially pork", pstr "cane sugar products", pstr "soft drink",
   pstr "processed", pstr "refined", pstr "artificial", pstr "chemical"]

/-- The generic names skipped once more than five items collected (line 344). -/
def genericNames : List PyStr := [pstr "water", pstr "salt", pstr "sugar", pstr "oil"]

/-- Lines 333–364: convert, filter and cap the parsed ingredient items. -/
def aiFilterLoop : List AIIngItem → List Ingredient → List Ingredient
  | [], acc => acc
  | it :: rest, acc =>
    let nameLower := pyStrip (pyLower it.name)
    if non_remedy_items.any (fun b => isSubstr b nameLower) then aiFilterLoop rest acc
    else if genericNames.contains nameLower ∧ 5 < acc.length then aiFilterLoop rest acc
    else
      let amount : PyStr := match it.amount with
        | some a => if a.isEmpty then [] else pyStrip a
        | none => []
      let unit0 : PyStr := match it.unit with
        | some u => if u.isEmpty then [] else pyStrip u
        | none => []
      let unit1 := if !unit0.isEmpty ∧ !amount.isEmpty ∧
          isSubstr (pyLower unit0) (pyLower amount) then [] else unit0
      let ing : Ingredient :=
        { name := pyStrip it.name
          amount := if amount.isEmpty then none else some amount
          unit := if unit1.isEmpty then none else some unit1
          raw := it.name }
      let acc' := acc ++ [ing]
      if 15 ≤ acc'.length then acc' else aiFilterLoop rest acc'

/-- `index.py` lines 244–377: `ai_extract_ingredients`.  Every failure mode —
no key, a raised exception, unparsable JSON, or a non-list JSON value —
returns the empty list. -/
def ai_extract_ingredients : AIExtractOutcome → List Ingredient
  | .parsedList items => aiFilterLoop items []
  | _ => []

/-- A parsed JSON item of the formatting response (lines 464–488). -/
inductive AIStepItem
  | plain (s : PyStr)                 -- a JSON string
  | withStep (step : PyStr) (dosage : Option PyStr) (timing : Option PyStr)
                                      -- a dict with a "step" key
  | withText (payload : PyStr)        -- a dict without "step": the str() of
                                      -- its "text"/"instruction"/whole value
  | nonString (rendering : PyStr)     -- any other JSON value, via str()
deriving DecidableEq

/-- The observable outcome of the `ai_format_remedy_text` OpenAI call. -/
inductive AIFormatOutcome
  | noKey                                -- `OPENAI_API_KEY` unset (line 398)
  | apiError                             -- the client call raised (line 495)
  | parsedList (items : List AIStepItem) -- `json.loads` returned a list
  | parsedOther                          -- `json.loads` returned a non-list
  | parseFail (raw : PyStr)              -- `json.JSONDecodeError`: the raw
                                         -- response text (lines 490–493)
deriving DecidableEq

/-- Lines 466–488: coerce one parsed step item to a string. -/
def stepString : AIStepItem → PyStr
  | .plain s => s
  | .withStep step dosage timing =>
    let extras :=
      (match dosage with
        | some d =>
          if !d.isEmpty ∧ d ≠ pstr "As per individual preference" then
            [pstr "Dosage: " ++ d]
          else []
        | none => []) ++
      (match timing with
        | some t =>
          if !t.isEmpty ∧ t ≠ pstr "Throughout the day" ∧ t ≠ pstr "As needed" then
            [pstr "Timing: " ++ t]
          else []
        | none => [])
    if extras.isEmpty then step
    else step ++ pstr " (" ++ List.intercalate (pstr ", ") extras ++ pstr ")"
  | .withText p => p
  | .nonString r => r

/-- `index.py` lines 393–499: `ai_format_remedy_text`.  On a parsed non-empty
list, the first eight items are coerced to strings; on `JSONDecodeError`, the
non-empty stripped lines of the raw response (split on `\n`), capped at six;
everything else yields the empty list. -/
def ai_format_remedy_text : AIFormatOutcome → List PyStr
  | .parsedList items =>
    if items.isEmpty then [] else (items.take 8).map stepString
  | .parseFail raw =>
    (((pySplitChar '\n' raw).map pyStrip).filter (fun l => !l.isEmpty)).take 6
  | _ => []

/-- The six canned practical instructions of lines 510–517. -/
def practical_instructions : List PyStr :=
  [pstr "Tea Preparation: For most herbs, steep 1-2 teaspoons of dried herb in 1 cup boiling water for 10-15 minutes. Strain and drink 2-3 times daily.",
   pstr "Tincture Use: If using liquid extracts, take 1-3 dropperfuls (about 1-3 ml) in water, 2-3 times daily between meals.",
   pstr "Fresh Juice: For vegetable juices mentioned (celery, cucumber, parsley), drink 4-8 oz fresh juice daily, preferably on an empty stomach.",
   pstr "Dietary Integration: Include the mentioned fruits and vegetables as 50-70% of daily food intake, focusing on fresh, organic produce when possible.",
   pstr "Treatment Duration: Continue herbal protocol for 2-4 weeks initially, then reassess. Consult healthcare provider for serious conditions.",
   pstr "Important Note: Start with smaller doses to test tolerance. Always consult a qualified herbalist or healthcare provider before beginning any herbal treatment program."]

/-- The five targeted herb instructions of lines 521–527, in dict
(insertion) order. -/
def manualHerbTable : List (PyStr × PyStr) :=
  [(pstr "red clover", pstr "Red Clover Tea: Steep 1-2 tsp dried red clover blossoms in 1 cup hot water for 10 minutes. Drink 2-3 cups daily."),
   (pstr "burdock", pstr "Burdock Root Decoction: Simmer 1 tbsp dried burdock root in 2 cups water for 20 minutes. Strain, drink 1/2 cup twice daily."),
   (pstr "turmeric", pstr "Turmeric Paste: Mix 1 tsp turmeric powder + 1/4 tsp black pepper + 1 tbsp coconut oil. Take twice daily with meals."),
   (pstr "ginger", pstr "Ginger Tea: Steep 1 tsp fresh grated ginger in 1 cup hot water for 10 minutes. Add honey if desired. Drink 2-3 times daily."),
   (pstr "nettle", pstr "Nettle Infusion: Pour 1 cup boiling water over 1-2 tsp dried nettle leaves. Steep 10-15 minutes. Drink 2-3 cups daily.")]

/-- `index.py` lines 501–542: `manual_format_medical_text`.  The
`re.sub(r'\s+', ' ', text).strip()` normalisation equals joining the split
words with single spaces. -/
def manual_format_medical_text (text : PyStr) : List PyStr :=
  let t := joinWords (pySplit text)
  let tl := pyLower t
  let herbsFound := manualHerbTable.filterMap fun p =>
    if isSubstr p.1 tl then some p.2 else none
  let sections :=
    if !herbsFound.isEmpty then herbsFound.take 4 ++ practical_instructions.take 2
    else practical_instructions
  sections.take 6

/-- `index.py` lines 379–391: `format_medical_text`.  `ai_format_remedy_text`
catches all its own exceptions, so the `except` branch is unreachable; the
AI result is used only when it has more than one entry. -/
def format_medical_text (text : PyStr) (fmt : AIFormatOutcome) : List PyStr :=
  let ai := ai_format_remedy_text fmt
  if 1 < ai.length then ai else manual_format_medical_text text

/-- The consolidation synonym table of lines 552–567, in insertion order. -/
def dedupeHerbTable : List (PyStr × List PyStr) :=
  [(pstr "ginger", [pstr "ginger", pstr "ginger root", pstr "fresh ginger"]),
   (pstr "lemon", [pstr "lemon", pstr "lemon juice", pstr "fresh lemon", pstr "lemon juiced"]),
   (pstr "honey", [pstr "honey", pstr "raw honey", pstr "organic honey"]),
   (pstr "water", [pstr "water", pstr "hot water", pstr "warm water", pstr "boiling water"]),
   (pstr "tea", [pstr "tea", pstr "herbal tea", pstr "green tea"]),
   (pstr "oil", [pstr "oil", pstr "coconut oil", pstr "olive oil", pstr "essential oil"]),
   (pstr "turmeric", [pstr "turmeric", pstr "turmeric powder", pstr "fresh turmeric"]),
   (pstr "garlic", [pstr "garlic", pstr "fresh garlic", pstr "garlic cloves"]),
   (pstr "rhodiola", [pstr "rhodiola", pstr "rhodiola root"]),
   (pstr "ginseng", [pstr "ginseng", pstr "american ginseng", pstr "korean ginseng"]),
   (pstr "ashwagandha", [pstr "ashwagandha", pstr "ashwagandha root"]),
   (pstr "devil" ++ apos :: pstr "s claw",
    [pstr "devil" ++ apos :: pstr "s claw", pstr "devils claw"]),
   (pstr "nettle", [pstr "nettle", pstr "stinging nettle", pstr "nettle leaf"]),
   (pstr "coconut water", [pstr "coconut water", pstr "coconut milk"]),
   (pstr "hibiscus", [pstr "hibiscus", pstr "hibiscus flower", pstr "hibiscus tea"])]

/-- The reverse variant-to-main lookup of lines 570–574 (`dict.get` with the
name itself as default; all variants are distinct, so first-match equals the
dict). -/
def herbLookup (n : PyStr) : PyStr :=
  match (dedupeHerbTable.flatMap fun p => p.2.map fun v => (pyLower v, p.1)).find?
      (fun q => q.1 = n) with
  | some q => q.2
  | none => n

/-- The non-ingredient names skipped by line 582. -/
def dedupeSkipWords : List PyStr :=
  [pstr "teaspoon", pstr "tablespoon", pstr "cup", pstr "boiling",
   pstr "fresh", pstr "organic", pstr "raw"]

/-- Python truthiness of an optional string field. -/
def truthyOpt : Option PyStr → Bool
  | some s => !s.isEmpty
  | none => false

/-- Replace the value stored at `key`, keeping its position (Python dict
update semantics). -/
def updateAssoc : List (PyStr × Ingredient) → PyStr → Ingredient → List (PyStr × Ingredient)
  | [], _, _ => []
  | (k, v) :: t, key, nv =>
    if k = key then (k, nv) :: t else (k, v) :: updateAssoc t key nv

/-- Lines 576–598: the consolidation loop over an insertion-ordered dict.
A new entry is stored with the title-cased main name (the in-place `"name"`
assignment of line 596); a preferred replacement keeps the incoming name
unchanged (no retitling happens on line 593). -/
def dedupeLoop : List Ingredient → List (PyStr × Ingredient) → List Ingredient
  | [], consolidated => consolidated.map Prod.snd
  | ing :: rest, consolidated =>
    let nameLower := pyStrip (pyLower ing.name)
    if dedupeSkipWords.contains nameLower then dedupeLoop rest consolidated
    else
      let mainName := herbLookup nameLower
      match (consolidated.find? fun p => p.1 = mainName) with
      | some (_, existing) =>
        if truthyOpt ing.amount ∧ truthyOpt ing.unit ∧
            !(truthyOpt existing.amount ∧ truthyOpt existing.unit) then
          dedupeLoop rest (updateAssoc consolidated mainName ing)
        else dedupeLoop rest consolidated
      | none =>
        dedupeLoop rest (consolidated ++ [(mainName, { ing with name := pyTitle mainName })])

/-- `index.py` lines 545–598: `smart_dedupe_ingredients`. -/
def smart_dedupe_ingredients (ings : List Ingredient) : List Ingredient :=
  if ings.isEmpty then [] else dedupeLoop ings []

/-- `index.py` lines 172–242: `extract_ingredients_and_steps`, with the two
OpenAI call outcomes passed as oracles.  AI-found ingredients replace the
basic parse; AI-formatted instructions replace the basic steps when they have
more than one entry, otherwise the raw snippet backstops empty steps. -/
def extract_ingredients_and_steps (aiIng : AIExtractOutcome)
    (aiFmt : AIFormatOutcome) (snippet : PyStr) : Extracted :=
  let parsed := basicParse indexBullets snippet
  let ingredients :=
    if !snippet.isEmpty then
      let a := ai_extract_ingredients aiIng
      if !a.isEmpty then a else parsed.1
    else parsed.1
  let steps :=
    if !snippet.isEmpty then
      let f := format_medical_text snippet aiFmt
      if 1 < f.length then f
      else if parsed.2.isEmpty then [snippet] else parsed.2
    else parsed.2
  { ingredients := smart_dedupe_ingredients ingredients
    instructions := steps.take 12 }

/-- The result of the pure regex/keyword heuristic extraction, as the spec
describes it: the basic line parse, the keyword-table manual formatting, and
the synonym-table deduplication, with no LLM involved.  This is the
comparison point for the silent-fallback claim. -/
def heuristic_extract (snippet : PyStr) : Extracted :=
  let parsed := basicParse indexBullets snippet
  let steps :=
    if !snippet.isEmpty then
      let f := manual_format_medical_text snippet
      if 1 < f.length then f
      else if parsed.2.isEmpty then [snippet] else parsed.2
    else parsed.2
  { ingredients := smart_dedupe_ingredients parsed.1
    instructions := steps.take 12 }

/-! ### `index.py`'s search scoring and request handler -/

/-- The extended remedy keywords of lines 609–610 (also re-declared verbatim
at lines 1523–1524 of the handler). -/
def remedy_keywords : List PyStr :=
  [pstr "remedy", pstr "treatment", pstr "cure", pstr "heal", pstr "recipe",
   pstr "medicine", pstr "therapeutic", pstr "natural", pstr "herbal",
   pstr "traditional", pstr "preparation", pstr "formula", pstr "mixture"]

/-- The ingredient keywords of lines 611–612. -/
def ingredient_keywords : List PyStr :=
  [pstr "ingredient", pstr "ingredients", pstr "herb", pstr "herbs",
   pstr "plant", pstr "plants", pstr "root", pstr "leaf", pstr "flower",
   pstr "extract", pstr "oil", pstr "tea", pstr "tincture"]

/-- Lines 614–682: the relevance score of one chunk.  `oq` is the lowered,
stripped query; `queryWords` its deduplicated word set.  `max(0, score - k)`
on a non-negative score is `Nat` truncated subtraction.  The
`word_match_ratio >= 0.8` float test and `int(ratio * 20)` are modelled by
exact rational arithmetic (`4*n ≤ 5*found` and flooring), which agrees with
the float computation at the word counts involved.  With an empty word set
(an all-whitespace query) and a zero phrase score Python raises
`ZeroDivisionError`, which the handler's `except` turns into an error
response; the model treats the branch as not taken and covers that raised
request through `RequestParse.fail` instead (see its docstring). -/
def chunkScore (oq : PyStr) (queryWords : List PyStr) (c : IChunk) : Nat :=
  let tl := pyLower c.text
  let sentences := pySplitChar '.' tl
  let phrase :=
    if isSubstr oq tl then
      sentences.foldl (fun (st : Nat × Bool) sen =>
        let s := pyStrip sen
        if isSubstr oq s then
          let condCount := countOccs (pstr "cancer") s + countOccs [','] s +
            countOccs (pstr "disease") s
          if condCount ≤ 3 then
            (st.1 + 50 + (if remedy_keywords.any (fun k => isSubstr k s) then 30 else 0),
             true)
          else (st.1 + 10, st.2)
        else st) (0, false)
    else (0, false)
  let score1 := if isSubstr oq tl ∧ !phrase.2 then phrase.1 - 30 else phrase.1
  let score2 :=
    if score1 = 0 then
      let qn := queryWords.length
      let found := (queryWords.filter fun w => isSubstr w tl).length
      if qn ≠ 0 ∧ 4 * qn ≤ 5 * found then
        (20 * found) / qn +
          (sentences.map fun sen =>
            let wis := (queryWords.filter fun w => isSubstr w sen).length
            if 2 ≤ wis then 5 * wis else 0).sum
      else 0
    else score1
  if 0 < score2 then
    let withKw := score2 +
      (if ingredient_keywords.any (fun k => isSubstr k tl) then 3 else 0) +
      (if remedy_keywords.any (fun k => isSubstr k tl) then 5 else 0)
    let bookName := pyLower c.book
    if isSubstr (pstr "1.epub") bookName ∨ isSubstr (pstr "2.epub") bookName then
      withKw + 20
    else if isSubstr (pstr "test-book") bookName then withKw - 10
    else withKw
  else score2

/-- `index.py` lines 600–694: `simple_text_search`. -/
def simple_text_search (books : List IChunk) (query : PyStr) (maxResults : Int) :
    List IChunk :=
  let oq := pyStrip (pyLower query)
  let qws := (pySplit oq).eraseDups
  let scored := books.filterMap fun c =>
    let s := chunkScore oq qws c
    if 0 < s then some (c, s) else none
  (pyTake maxResults (insertSortDesc scored)).map Prod.fst

/-- Lines 696–704: `affiliate_search_url` with the category switch. -/
def toolWords : List PyStr :=
  [pstr "mortar", pstr "pestle", pstr "gauze", pstr "bandage", pstr "thermometer"]

def affiliate_search_url (query tag : PyStr) : PyStr :=
  let iParam := if toolWords.any (fun t => isSubstr t (pyLower query)) then
    pstr "hpc" else pstr "grocery"
  pstr "https://www.amazon.com/s?k=" ++ pyQuotePlus query ++
    pstr "&i=" ++ iParam ++ pstr "&tag=" ++ tag

/-- A remedy dict as assembled by `handle_search`. -/
structure IndexRemedy where
  id : PyStr
  title : PyStr
  summary : Option PyStr
  ingredients : List SimpleApi.LinkedIngredient
  instructions : List PyStr
  srcBook : PyStr
  srcChapter : PyStr
  srcPos : Nat
deriving DecidableEq, Repr

/-- Lines 1536–1543: `query_relevance`. -/
def queryRelevance (oq tl : PyStr) : Nat :=
  if isSubstr oq tl then
    let qc := countOccs oq tl
    let sentsWith := (pySplitChar '.' tl).filter fun s => isSubstr oq s
    qc + 2 * (sentsWith.filter fun s =>
      remedy_keywords.any fun k => isSubstr k s).length
  else 0

def irrelevant_keywords : List PyStr :=
  [pstr "children", pstr "kids", pstr "baby", pstr "infant", pstr "toddler",
   pstr "pediatric"]

def generic_keywords : List PyStr :=
  [pstr "detox", pstr "cleansing", pstr "general health", pstr "overall wellness"]

/-- The common-herb names scanned by the basic-remedy path (lines 1632–1633). -/
def common_ingredients15 : List PyStr :=
  [pstr "ginger", pstr "honey", pstr "lemon", pstr "water", pstr "oil",
   pstr "tea", pstr "garlic", pstr "turmeric", pstr "cinnamon", pstr "pepper",
   pstr "salt", pstr "vinegar", pstr "chamomile", pstr "mint", pstr "basil"]

/-- Lines 1575–1576 / 1614: the normalised title key used for duplicate
suppression. -/
def titleKey (title : PyStr) : PyStr :=
  ((pyLower title).filter fun c => !(c == ' ' || c == '-' || c == ':')).take 50

/-- Lines 1635–1647: scan the chunk text for common ingredient names, capped
at five (the list entries are distinct, so the `found_ingredients` re-check
never fires). -/
def commonScanLoop (tl tag : PyStr) :
    List PyStr → List SimpleApi.LinkedIngredient → List SimpleApi.LinkedIngredient
  | [], acc => acc
  | ing :: rest, acc =>
    if isSubstr ing tl then
      let acc' := acc ++ [{ name := pyTitle ing, amount := none, unit := none
                            raw := ing, link := some (affiliate_search_url ing tag) }]
      if 5 ≤ acc'.length then acc' else commonScanLoop tl tag rest acc'
    else commonScanLoop tl tag rest acc

/-- Attach an affiliate link to an extracted ingredient (lines 1587–1591). -/
def withLink (tag : PyStr) (g : Ingredient) : SimpleApi.LinkedIngredient :=
  { name := g.name, amount := g.amount, unit := g.unit, raw := g.raw
    link := some (affiliate_search_url g.name tag) }

/-- An extracted ingredient used without adding a link (line 1628). -/
def withoutLink (g : Ingredient) : SimpleApi.LinkedIngredient :=
  { name := g.name, amount := g.amount, unit := g.unit, raw := g.raw, link := none }

/-- Lines 1526–1664: the remedy-building loop of `handle_search`.  State:
the enumeration index `i`, the accumulated remedies, and the
`used_remedy_ids` / `used_titles` sets.  `continue` paths skip the trailing
`len(remedies) >= max_results` break check, which only runs after a chunk is
fully processed. -/
def searchLoop (tag oq rawQuery : PyStr) (k : Int)
    (aiIngF : PyStr → AIExtractOutcome) (aiFmtF : PyStr → AIFormatOutcome) :
    List IChunk → Nat → List IndexRemedy → List PyStr → List PyStr → List IndexRemedy
  | [], _, remedies, _, _ => remedies
  | c :: rest, i, remedies, usedIds, usedTitles =>
    let tl := pyLower c.text
    let qrel := queryRelevance oq tl
    if irrelevant_keywords.any (fun w => isSubstr w tl) ∧ qrel < 2 then
      searchLoop tag oq rawQuery k aiIngF aiFmtF rest (i + 1) remedies usedIds usedTitles
    else if generic_keywords.any (fun w => isSubstr w tl) ∧ qrel < 3 then
      searchLoop tag oq rawQuery k aiIngF aiFmtF rest (i + 1) remedies usedIds usedTitles
    else
      let isRemedyChunk := SimpleApi.gateIngredientKw.any (fun w => isSubstr w tl) ∧
        SimpleApi.gateRemedyKw.any (fun w => isSubstr w tl)
      let ex := extract_ingredients_and_steps (aiIngF c.text) (aiFmtF c.text) c.text
      if isRemedyChunk ∧ !ex.ingredients.isEmpty then
        let fs0 := pyStrip ((pySplitChar '.' c.text).headD [])
        let firstSentence := if 100 < fs0.length then fs0.take 100 ++ pstr "..." else fs0
        let title := if firstSentence.isEmpty then pstr "Remedy for " ++ rawQuery
          else firstSentence
        let rid := (MD5.md5Hex (c.text.take 200 ++ title)).take 12
        let tkey := titleKey title
        if rid ∈ usedIds ∨ tkey ∈ usedTitles then
          searchLoop tag oq rawQuery k aiIngF aiFmtF rest (i + 1) remedies usedIds usedTitles
        else
          let r : IndexRemedy :=
            { id := rid, title := title, summary := none
              ingredients := ex.ingredients.map (withLink tag)
              instructions := ex.instructions
              srcBook := c.book, srcChapter := c.chapter, srcPos := c.pos }
          let remedies' := remedies ++ [r]
          if k ≤ (remedies'.length : Int) then remedies'
          else searchLoop tag oq rawQuery k aiIngF aiFmtF rest (i + 1) remedies'
            (rid :: usedIds) (tkey :: usedTitles)
      else if remedies.isEmpty ∧ i < 3 then
        let title := pstr "Traditional approach for " ++ rawQuery
        let rid := (MD5.md5Hex (c.text.take 200 ++ title)).take 12
        let tkey := titleKey title
        if rid ∈ usedIds ∨ tkey ∈ usedTitles then
          searchLoop tag oq rawQuery k aiIngF aiFmtF rest (i + 1) remedies usedIds usedTitles
        else
          let basicIngs :=
            if !ex.ingredients.isEmpty then ex.ingredients.map withoutLink
            else commonScanLoop tl tag common_ingredients15 []
          let r : IndexRemedy :=
            { id := rid, title := title
              summary := some (if 200 < c.text.length then c.text.take 200 ++ pstr "..."
                else c.text)
              ingredients := basicIngs
              instructions := if ex.instructions.isEmpty then
                  [pstr "Refer to traditional preparation methods"]
                else ex.instructions
              srcBook := c.book, srcChapter := c.chapter, srcPos := c.pos }
          let remedies' := remedies ++ [r]
          if k ≤ (remedies'.length : Int) then remedies'
          else searchLoop tag oq rawQuery k aiIngF aiFmtF rest (i + 1) remedies'
            (rid :: usedIds) (tkey :: usedTitles)
      else
        if k ≤ (remedies.length : Int) then remedies
        else searchLoop tag oq rawQuery k aiIngF aiFmtF rest (i + 1) remedies usedIds usedTitles

/-- The outcome of the fallible prefix of `handle_search`'s `try` block:
`ok` carries the decoded `q` (default `""`) and `k` (default `5`) of a
request whose processing completes; `fail` models any exception the block
raises — a bad `Content-Length`, an undecodable body, a non-numeric `k`
(`max_results * 2` or the list slice raises `TypeError`), or the
`ZeroDivisionError` an all-whitespace query can trigger in the scorer —
whose message reaches the `except` branch. -/
inductive RequestParse
  | ok (q : PyStr) (k : Int)
  | fail (excMsg : PyStr)

/-- An HTTP search response: `send_response(200)` with the success JSON, or
`send_error_response` (status 400) with the error JSON. -/
inductive SearchResponse
  | success (remedies : List IndexRemedy)
  | failure (message : PyStr)
deriving DecidableEq

/-- `index.py` lines 1492–1677: `handle_search`.  `load_epub_books()` runs
first; the remedy-building body is pure and total in the model, so the only
exceptions reaching the `except` branch are the request-parse ones. -/
def handle_search (booksBefore parsedChunks : List IChunk) (req : RequestParse)
    (aiIngF : PyStr → AIExtractOutcome) (aiFmtF : PyStr → AIFormatOutcome)
    (tag : PyStr) : SearchResponse :=
  let books := load_epub_books booksBefore parsedChunks
  match req with
  | .fail e => .failure (pstr "Search error: " ++ e)
  | .ok q k =>
    if books.isEmpty then .failure (pstr "No remedy data loaded.")
    else
      let matching := simple_text_search books q (k * 2)
      let oq := pyStrip (pyLower q)
      .success (searchLoop tag oq q k aiIngF aiFmtF matching 0 [] [] [])

/-! ### JSON rendering of the response -/

/-- A small JSON value AST for the response bodies. -/
inductive JsonVal
  | null
  | bool (b : Bool)
  | num (n : Int)
  | str (s : PyStr)
  | arr (xs : List JsonVal)
  | obj (fields : List (PyStr × JsonVal))

def optStrJson : Option PyStr → JsonVal
  | some s => .str s
  | none => .null

/-- One ingredient dict as serialised by `json.dumps` (field order as
constructed; a missing `"link"` key is simply absent). -/
def linkedIngJson (g : SimpleApi.LinkedIngredient) : JsonVal :=
  .obj ([(pstr "name", .str g.name), (pstr "amount", optStrJson g.amount),
         (pstr "unit", optStrJson g.unit), (pstr "raw", .str g.raw)] ++
    (match g.link with
      | some l => [(pstr "link", .str l)]
      | none => []))

/-- One remedy dict as built at lines 1593–1604 / 1649–1660. -/
def indexRemedyJson (r : IndexRemedy) : JsonVal :=
  .obj [(pstr "id", .str r.id), (pstr "title", .str r.title),
        (pstr "summary", optStrJson r.summary),
        (pstr "ingredients", .arr (r.ingredients.map linkedIngJson)),
        (pstr "instructions", .arr (r.instructions.map .str)),
        (pstr "source", .obj [(pstr "book", .str r.srcBook),
                              (pstr "chapter", .str r.srcChapter),
                              (pstr "pos", .num r.srcPos)])]

/-- The HTTP status code sent with a response (lines 1668, 1681). -/
def respStatus : SearchResponse → Nat
  | .success _ => 200
  | .failure _ => 400

/-- The JSON body written for a response (lines 1673, 1685). -/
def respBody : SearchResponse → JsonVal
  | .success rs => .obj [(pstr "ok", .bool true),
                         (pstr "remedies", .arr (rs.map indexRemedyJson))]
  | .failure m => .obj [(pstr "ok", .bool false), (pstr "error", .str m)]

end IndexApi

/-! ## Lemmas: splitting and joining words -/

theorem pySplitAux_append_word (w : PyStr) (hw : ∀ c ∈ w, isPySpace c = false) :
    ∀ (s acc : PyStr), pySplitAux (w ++ s) acc = pySplitAux s (w.reverse ++ acc) := by
  induction w with
  | nil => intro s acc; simp
  | cons c w' ih =>
    intro s acc
    have hc : isPySpace c = false := hw c (by simp)
    have step : pySplitAux ((c :: w') ++ s) acc = pySplitAux (w' ++ s) (c :: acc) := by
      show pySplitAux (c :: (w' ++ s)) acc = _
      simp [pySplitAux, hc]
    rw [step, ih (fun c' hc' => hw c' (by simp [hc'])) s (c :: acc)]
    simp

theorem pySplitAux_space (s acc : PyStr) :
    pySplitAux (' ' :: s) acc =
      if acc.isEmpty then pySplitAux s [] else acc.reverse :: pySplitAux s [] := by
  simp [pySplitAux, isPySpace]

/-- Splitting the space-joined list of clean words recovers the list. -/
theorem pySplit_joinWords (l : List PyStr)
    (h : ∀ w ∈ l, w ≠ [] ∧ ∀ c ∈ w, isPySpace c = false) :
    pySplit (joinWords l) = l := by
  induction l with
  | nil => rfl
  | cons w l' ih =>
    obtain ⟨hne, hclean⟩ := h w (by simp)
    cases l' with
    | nil =>
      show pySplitAux w [] = [w]
      have hrw := pySplitAux_append_word w hclean [] []
      rw [List.append_nil] at hrw
      rw [hrw]
      simp [pySplitAux, List.isEmpty_iff, hne]
    | cons w2 l2 =>
      show pySplitAux (w ++ ' ' :: joinWords (w2 :: l2)) [] = w :: w2 :: l2
      rw [pySplitAux_append_word w hclean, pySplitAux_space]
      have hcond : (w.reverse ++ ([] : PyStr)).isEmpty = false := by
        simp [List.isEmpty_iff, hne]
      rw [hcond]
      simp only [List.append_nil, List.reverse_reverse, Bool.false_eq_true, if_false]
      have hih := ih (fun x hx => h x (by simp [hx]))
      rw [show pySplitAux (joinWords (w2 :: l2)) [] = pySplit (joinWords (w2 :: l2)) from rfl,
        hih]

/-! ## Lemmas: the stable descending insertion sort -/

theorem perm_insertDesc (x : α × Nat) (l : List (α × Nat)) :
    List.Perm (insertDesc x l) (x :: l) := by
  induction l with
  | nil => exact List.Perm.refl _
  | cons y ys ih =>
    by_cases h : y.2 < x.2
    · simp only [insertDesc, h, if_true]
      exact List.Perm.refl _
    · simp only [insertDesc, h, if_false]
      exact (List.Perm.cons y ih).trans (List.Perm.swap x y ys)

theorem perm_insertSortDesc (l : List (α × Nat)) :
    List.Perm (insertSortDesc l) l := by
  induction l with
  | nil => exact List.Perm.refl _
  | cons x xs ih =>
    exact (perm_insertDesc x (insertSortDesc xs)).trans (List.Perm.cons x ih)

theorem mem_insertDesc {x y : α × Nat} {l : List (α × Nat)} :
    y ∈ insertDesc x l ↔ y = x ∨ y ∈ l := by
  rw [(perm_insertDesc x l).mem_iff]; simp

theorem pairwise_insertDesc {x : α × Nat} {l : List (α × Nat)}
    (h : l.Pairwise (fun p q => q.2 ≤ p.2)) :
    (insertDesc x l).Pairwise (fun p q => q.2 ≤ p.2) := by
  induction l with
  | nil => simp [insertDesc]
  | cons y ys ih =>
    rw [List.pairwise_cons] at h
    obtain ⟨hy, hys⟩ := h
    by_cases hlt : y.2 < x.2
    · simp only [insertDesc, hlt, if_true]
      refine List.pairwise_cons.mpr ⟨?_, List.pairwise_cons.mpr ⟨hy, hys⟩⟩
      intro z hz
      rcases List.mem_cons.mp hz with h | h
      · subst h; omega
      · have := hy z h; omega
    · simp only [insertDesc, hlt, if_false]
      refine List.pairwise_cons.mpr ⟨?_, ih hys⟩
      intro z hz
      rcases mem_insertDesc.mp hz with h | h
      · subst h; omega
      · exact hy z h

theorem pairwise_insertSortDesc (l : List (α × Nat)) :
    (insertSortDesc l).Pairwise (fun p q => q.2 ≤ p.2) := by
  induction l with
  | nil => simp [insertSortDesc]
  | cons x xs ih => exact pairwise_insertDesc ih

/-! ## Lemmas: the shared score/sort/slice search pipeline -/

theorem pyTake_subset (n : Int) (xs : List α) : pyTake n xs ⊆ xs := by
  unfold pyTake
  split <;> exact List.take_subset _ _

theorem pyTake_length_le (n : Int) (hn : 0 ≤ n) (xs : List α) :
    (pyTake n xs).length ≤ n.toNat := by
  unfold pyTake
  rw [if_pos hn]
  simp only [List.length_take]
  omega

/-- The common shape of both `simple_text_search` functions: score, keep the
positive, sort descending (stably), slice, project. -/
def searchPipeline (books : List β) (score : β → Nat) (n : Int) : List β :=
  (pyTake n (insertSortDesc (books.filterMap fun c =>
    let s := score c
    if 0 < s then some (c, s) else none))).map Prod.fst

theorem mem_scoredOf {books : List β} {score : β → Nat} {p : β × Nat}
    (hp : p ∈ books.filterMap fun c =>
      let s := score c
      if 0 < s then some (c, s) else none) :
    p.1 ∈ books ∧ 0 < score p.1 ∧ p.2 = score p.1 := by
  obtain ⟨a, ha, hfa⟩ := List.mem_filterMap.mp hp
  dsimp only at hfa
  by_cases hs : 0 < score a
  · rw [if_pos hs] at hfa
    have := Option.some.inj hfa
    subst this
    exact ⟨ha, hs, rfl⟩
  · rw [if_neg hs] at hfa
    exact absurd hfa (by simp)

theorem searchPipeline_mem {books : List β} {score : β → Nat} {n : Int} {c : β}
    (hc : c ∈ searchPipeline books score n) : c ∈ books ∧ 0 < score c := by
  unfold searchPipeline at hc
  obtain ⟨p, hp, hfst⟩ := List.mem_map.mp hc
  have hp2 : p ∈ insertSortDesc _ := pyTake_subset _ _ hp
  have hp3 := (perm_insertSortDesc _).mem_iff.mp hp2
  obtain ⟨h1, h2, _⟩ := mem_scoredOf hp3
  subst hfst
  exact ⟨h1, h2⟩

theorem searchPipeline_length_le {books : List β} {score : β → Nat} {n : Int}
    (hn : 0 ≤ n) : (searchPipeline books score n).length ≤ n.toNat := by
  unfold searchPipeline
  rw [List.length_map]
  exact pyTake_length_le n hn _

theorem searchPipeline_sorted (books : List β) (score : β → Nat) (n : Int) :
    (searchPipeline books score n).Pairwise fun a b => score b ≤ score a := by
  unfold searchPipeline
  rw [List.pairwise_map]
  have hsorted := pairwise_insertSortDesc (books.filterMap fun c =>
    let s := score c
    if 0 < s then some (c, s) else none)
  have htake : List.Sublist (pyTake n (insertSortDesc (books.filterMap fun c =>
      let s := score c
      if 0 < s then some (c, s) else none))) (insertSortDesc (books.filterMap fun c =>
      let s := score c
      if 0 < s then some (c, s) else none)) := by
    unfold pyTake
    split <;> exact List.take_sublist _ _
  have hpw := hsorted.sublist htake
  refine hpw.imp_of_mem ?_
  intro a b ha hb hr
  have ha' := (perm_insertSortDesc _).mem_iff.mp (htake.subset ha)
  have hb' := (perm_insertSortDesc _).mem_iff.mp (htake.subset hb)
  obtain ⟨_, _, ha2⟩ := mem_scoredOf ha'
  obtain ⟨_, _, hb2⟩ := mem_scoredOf hb'
  rw [ha2, hb2] at hr
  exact hr

/-! ## Lemmas: the word-window loop -/

/-- The loop's `words[i:end_idx]` slice equals the `mw`-clipped window. -/
theorem take_window (ws : List PyStr) (mw i : Nat) :
    (ws.drop i).take (min (i + mw) ws.length - i) = (ws.drop i).take mw := by
  rw [List.take_eq_take]
  simp only [List.length_drop]
  omega

/-- The chunks produced from state `i` are the windows at the arithmetic
start sequence `i, i + (mw - ol), …`. -/
theorem slideAux_starts (ws : List PyStr) (mw ol : Nat) :
    ∀ (fuel i : Nat), ∃ starts : List Nat,
      slideAux ws mw ol fuel i =
        starts.map (fun s => joinWords ((ws.drop s).take mw)) ∧
      starts.Chain' (fun a b => b = a + (mw - ol)) ∧
      (starts = [] ∨ starts.head? = some i) := by
  intro fuel
  induction fuel with
  | zero => intro i; exact ⟨[], rfl, by simp, Or.inl rfl⟩
  | succ f ih =>
    intro i
    by_cases hi : i < ws.length
    · by_cases hend : ws.length ≤ min (i + mw) ws.length
      · refine ⟨[i], ?_, by simp, Or.inr rfl⟩
        simp only [slideAux, hi, if_true, hend, if_true, List.map_cons, List.map_nil]
        rw [take_window]
      · obtain ⟨starts', heq, hchain, hhead⟩ := ih (i + (mw - ol))
        refine ⟨i :: starts', ?_, ?_, Or.inr rfl⟩
        · simp only [slideAux, hi, if_true, hend, if_false, List.map_cons]
          rw [take_window, heq]
        · rw [List.chain'_cons']
          refine ⟨?_, hchain⟩
          intro b hb
          rcases hhead with h | h
          · subst h; simp at hb
          · rw [h] at hb
            simp only [Option.mem_def, Option.some.injEq] at hb
            omega
    · refine ⟨[], ?_, by simp, Or.inl rfl⟩
      cases fuel_def : f + 1 with
      | zero => omega
      | succ _ => simp [slideAux, hi]

/-- Every position of the word list is covered by some emitted window,
provided the fuel suffices and the stride is positive. -/
theorem slideAux_covers (ws : List PyStr) (mw ol : Nat) (hd : ol < mw) :
    ∀ (fuel i n : Nat), i ≤ n → n < ws.length →
      ws.length - i ≤ fuel * (mw - ol) →
      ∃ s, s ≤ n ∧ n < s + mw ∧
        joinWords ((ws.drop s).take mw) ∈ slideAux ws mw ol fuel i := by
  intro fuel
  induction fuel with
  | zero =>
    intro i n hin hn hfuel
    omega
  | succ f ih =>
    intro i n hin hn hfuel
    have hi : i < ws.length := lt_of_le_of_lt hin hn
    by_cases hend : ws.length ≤ min (i + mw) ws.length
    · refine ⟨i, hin, by omega, ?_⟩
      simp only [slideAux, hi, if_true, hend, if_true]
      rw [take_window]
      simp
    · have hiw : i + mw < ws.length := by omega
      by_cases hcov : n < i + mw
      · refine ⟨i, hin, hcov, ?_⟩
        simp only [slideAux, hi, if_true, hend, if_false]
        rw [take_window]
        simp
      · obtain ⟨s, hs1, hs2, hs3⟩ := ih (i + (mw - ol)) n (by omega) hn (by
          have : (f + 1) * (mw - ol) = f * (mw - ol) + (mw - ol) := by ring
          omega)
        refine ⟨s, hs1, hs2, ?_⟩
        simp only [slideAux, hi, if_true, hend, if_false]
        exact List.mem_cons_of_mem _ hs3

/-- The word at a covered position belongs to its window slice. -/
theorem get_mem_window (ws : List PyStr) (mw s n : Nat) (hn : n < ws.length)
    (hs : s ≤ n) (hcov : n < s + mw) :
    ws.get ⟨n, hn⟩ ∈ (ws.drop s).take mw := by
  have hlen : n - s < ((ws.drop s).take mw).length := by
    simp only [List.length_take, List.length_drop]
    omega
  have hlen2 : n - s < (ws.drop s).length := by
    simp only [List.length_drop]
    omega
  have hmem : ((ws.drop s).take mw).get ⟨n - s, hlen⟩ ∈ (ws.drop s).take mw :=
    List.get_mem _ _ hlen
  have h1 : ((ws.drop s).take mw).get ⟨n - s, hlen⟩ =
      (ws.drop s).get ⟨n - s, hlen2⟩ := by
    simp only [List.get_eq_getElem]
    exact List.getElem_take _
  have h2 : (ws.drop s).get ⟨n - s, hlen2⟩ =
      ws.get ⟨s + (n - s), by omega⟩ := by
    simp only [List.get_eq_getElem]
    exact List.getElem_drop _
  have h3 : ws.get ⟨s + (n - s), by omega⟩ = ws.get ⟨n, hn⟩ := by
    congr 1
    simp only [Fin.mk.injEq]
    omega
  rw [h1, h2, h3] at hmem
  exact hmem

/-! ## Lemmas: the two search functions are instances of the pipeline -/

theorem simple_search_eq_pipeline (books : List SimpleApi.SChunk) (q : PyStr) (n : Int) :
    SimpleApi.simple_text_search books q n =
      searchPipeline books
        (fun c => SimpleApi.chunkScore ((pySplit (pyLower q)).eraseDups) c.text) n := rfl

theorem index_search_eq_pipeline (books : List IndexApi.IChunk) (q : PyStr) (n : Int) :
    IndexApi.simple_text_search books q n =
      searchPipeline books
        (IndexApi.chunkScore (pyStrip (pyLower q))
          ((pySplit (pyStrip (pyLower q))).eraseDups)) n := rfl

/-! ## Lemmas: bounds and invariants of the remedy-building loops -/

theorem le_max_toNat {k : Int} {m : Nat} (h : (m : Int) ≤ k ∨ m ≤ 1) :
    m ≤ (max k 1).toNat := by
  rcases le_total k 1 with hk | hk
  · rw [max_eq_right hk]
    rcases h with h | h
    · omega
    · simpa using h
  · rw [max_eq_left hk]
    rcases h with h | h
    · omega
    · omega

/-- Invariant bound on `index.py`'s remedy loop: starting from an accumulator
that is empty or strictly below `k`, the loop never returns more than
`max(k, 1)` remedies — each append is followed by the
`len(remedies) >= max_results` break check. -/
theorem indexSearchLoop_length_le (tag oq rq : PyStr) (k : Int)
    (aiF : PyStr → IndexApi.AIExtractOutcome) (afF : PyStr → IndexApi.AIFormatOutcome) :
    ∀ (chunks : List IndexApi.IChunk) (i : Nat) (rs : List IndexApi.IndexRemedy)
      (u t : List PyStr), ((rs.length : Int) < k ∨ rs.length = 0) →
      (IndexApi.searchLoop tag oq rq k aiF afF chunks i rs u t).length ≤
        (max k 1).toNat := by
  intro chunks
  induction chunks with
  | nil =>
    intro i rs u t hrs
    simp only [IndexApi.searchLoop]
    exact le_max_toNat (by omega)
  | cons c rest ih =>
    intro i rs u t hrs
    have hret : ∀ x : IndexApi.IndexRemedy,
        (rs ++ [x]).length ≤ (max k 1).toNat := by
      intro x
      simp only [List.length_append, List.length_cons, List.length_nil]
      exact le_max_toNat (by omega)
    simp only [IndexApi.searchLoop]
    split_ifs <;>
      first
        | exact ih _ _ _ _ hrs
        | exact hret _
        | exact le_max_toNat (by omega)
        | (refine ih _ _ _ _ (Or.inl ?_)
           simp only [List.length_append, List.length_cons, List.length_nil] at *
           omega)

/-- Invariant bound on `simple.py`'s remedy loop: never more than 3 remedies
(the `len(remedies) >= 3` break). -/
theorem simpleSearchLoop_le_three (tag : PyStr) :
    ∀ (chunks : List SimpleApi.SChunk) (acc : List SimpleApi.SimpleRemedy),
      acc.length < 3 → (SimpleApi.searchLoop tag chunks acc).length ≤ 3 := by
  intro chunks
  induction chunks with
  | nil =>
    intro acc hacc
    simp only [SimpleApi.searchLoop]
    omega
  | cons c rest ih =>
    intro acc hacc
    simp only [SimpleApi.searchLoop]
    split_ifs <;>
      first
        | exact ih acc hacc
        | (simp only [List.length_append, List.length_cons, List.length_nil]
           omega)
        | (apply ih
           simp only [List.length_append, List.length_cons, List.length_nil] at *
           omega)

/-- The `simple.py` loop adds at most one remedy per matching chunk. -/
theorem simpleSearchLoop_le_chunks (tag : PyStr) :
    ∀ (chunks : List SimpleApi.SChunk) (acc : List SimpleApi.SimpleRemedy),
      (SimpleApi.searchLoop tag chunks acc).length ≤ acc.length + chunks.length := by
  intro chunks
  induction chunks with
  | nil =>
    intro acc
    simp [SimpleApi.searchLoop]
  | cons c rest ih =>
    intro acc
    simp only [SimpleApi.searchLoop]
    split_ifs <;>
      first
        | (refine (ih acc).trans ?_
           simp only [List.length_cons]
           omega)
        | (simp only [List.length_append, List.length_cons, List.length_nil]
           omega)
        | (refine le_trans (ih _) ?_
           simp only [List.length_append, List.length_cons, List.length_nil]
           omega)

/-- Appending an element whose image is outside the covering set `u`
preserves `Nodup` of the mapped list. -/
theorem nodup_map_snoc {f : α → β} {rs : List α} {u : List β} {x : α}
    (hsub : ∀ a ∈ rs, f a ∈ u) (hnd : (rs.map f).Nodup) (hx : f x ∉ u) :
    ((rs ++ [x]).map f).Nodup := by
  rw [List.map_append, List.map_cons, List.map_nil, List.nodup_append]
  refine ⟨hnd, List.nodup_singleton _, ?_⟩
  intro b hb hb2
  simp only [List.mem_singleton] at hb2
  obtain ⟨a, ha, hfa⟩ := List.mem_map.mp hb
  exact hx (hb2 ▸ hfa ▸ hsub a ha)

/-- Every remedy the `index.py` loop returns carries an id that is the
truncated MD5 of the first 200 characters of some loaded chunk's text
concatenated with the remedy's own title — both append sites build
`content_snippet = chunk["text"][:200] + title`. -/
theorem indexSearchLoop_id_shape (tag oq rq : PyStr) (k : Int)
    (aiF : PyStr → IndexApi.AIExtractOutcome) (afF : PyStr → IndexApi.AIFormatOutcome)
    (books : List IndexApi.IChunk) :
    ∀ (chunks : List IndexApi.IChunk) (i : Nat) (rs : List IndexApi.IndexRemedy)
      (u t : List PyStr),
      (∀ c ∈ chunks, c ∈ books) →
      (∀ r ∈ rs, ∃ c ∈ books,
        r.id = (MD5.md5Hex (c.text.take 200 ++ r.title)).take 12) →
      ∀ r ∈ IndexApi.searchLoop tag oq rq k aiF afF chunks i rs u t,
        ∃ c ∈ books, r.id = (MD5.md5Hex (c.text.take 200 ++ r.title)).take 12 := by
  intro chunks
  induction chunks with
  | nil =>
    intro i rs u t _ hrs
    simpa only [IndexApi.searchLoop] using hrs
  | cons c rest ih =>
    intro i rs u t hch hrs
    have hcb : c ∈ books := hch c (List.mem_cons_self c rest)
    have hch' : ∀ c' ∈ rest, c' ∈ books :=
      fun c' hc' => hch c' (List.mem_cons_of_mem _ hc')
    simp only [IndexApi.searchLoop]
    split_ifs <;>
      first
        | exact hrs
        | exact ih _ _ _ _ hch' hrs
        | (intro r hr
           rcases List.mem_append.mp hr with hmem | hmem
           · exact hrs r hmem
           · simp only [List.mem_singleton] at hmem
             subst hmem
             exact ⟨c, hcb, rfl⟩)
        | (refine ih _ _ _ _ hch' ?_
           intro r hr
           rcases List.mem_append.mp hr with hmem | hmem
           · exact hrs r hmem
           · simp only [List.mem_singleton] at hmem
             subst hmem
             exact ⟨c, hcb, rfl⟩)

/-- Every remedy the `simple.py` loop returns carries an id that is the
truncated MD5 of some chunk's chapter concatenated with its position. -/
theorem simpleSearchLoop_id_shape (tag : PyStr) (books : List SimpleApi.SChunk) :
    ∀ (chunks : List SimpleApi.SChunk) (acc : List SimpleApi.SimpleRemedy),
      (∀ c ∈ chunks, c ∈ books) →
      (∀ r ∈ acc, ∃ c ∈ books,
        r.id = (MD5.md5Hex (c.chapter ++ natStr c.pos)).take 12) →
      ∀ r ∈ SimpleApi.searchLoop tag chunks acc,
        ∃ c ∈ books, r.id = (MD5.md5Hex (c.chapter ++ natStr c.pos)).take 12 := by
  intro chunks
  induction chunks with
  | nil =>
    intro acc _ hacc
    simpa only [SimpleApi.searchLoop] using hacc
  | cons c rest ih =>
    intro acc hch hacc
    have hcb : c ∈ books := hch c (List.mem_cons_self c rest)
    have hch' : ∀ c' ∈ rest, c' ∈ books :=
      fun c' hc' => hch c' (List.mem_cons_of_mem _ hc')
    simp only [SimpleApi.searchLoop]
    split_ifs <;>
      first
        | exact ih _ hch' hacc
        | (intro r hr
           rcases List.mem_append.mp hr with hmem | hmem
           · exact hacc r hmem
           · simp only [List.mem_singleton] at hmem
             subst hmem
             exact ⟨c, hcb, rfl⟩)
        | (refine ih _ hch' ?_
           intro r hr
           rcases List.mem_append.mp hr with hmem | hmem
           · exact hacc r hmem
           · simp only [List.mem_singleton] at hmem
             subst hmem
             exact ⟨c, hcb, rfl⟩)

/-- Duplicate suppression works: remedies accumulated by `index.py`'s loop
have pairwise-distinct ids and pairwise-distinct normalised title keys, as
long as the accumulator ids/keys are covered by the `used` sets. -/
theorem indexSearchLoop_nodup (tag oq rq : PyStr) (k : Int)
    (aiF : PyStr → IndexApi.AIExtractOutcome) (afF : PyStr → IndexApi.AIFormatOutcome) :
    ∀ (chunks : List IndexApi.IChunk) (i : Nat) (rs : List IndexApi.IndexRemedy)
      (u t : List PyStr),
      (∀ r ∈ rs, r.id ∈ u) →
      (∀ r ∈ rs, IndexApi.titleKey r.title ∈ t) →
      ((rs.map fun r => r.id).Nodup) →
      ((rs.map fun r => IndexApi.titleKey r.title).Nodup) →
      ((IndexApi.searchLoop tag oq rq k aiF afF chunks i rs u t).map
          fun r => r.id).Nodup ∧
      ((IndexApi.searchLoop tag oq rq k aiF afF chunks i rs u t).map
          fun r => IndexApi.titleKey r.title).Nodup := by
  intro chunks
  induction chunks with
  | nil =>
    intro i rs u t _ _ hnd1 hnd2
    simp only [IndexApi.searchLoop]
    exact ⟨hnd1, hnd2⟩
  | cons c rest ih =>
    intro i rs u t hid htk hnd1 hnd2
    simp only [IndexApi.searchLoop]
    split_ifs <;>
      first
        | exact ⟨hnd1, hnd2⟩
        | exact ih _ _ _ _ hid htk hnd1 hnd2
        | (refine ⟨nodup_map_snoc hid hnd1 ?_, nodup_map_snoc htk hnd2 ?_⟩
           · intro hmem
             exact absurd (Or.inl hmem) (by assumption)
           · intro hmem
             exact absurd (Or.inr hmem) (by assumption))
        | (refine ih _ _ _ _ ?_ ?_
             (nodup_map_snoc hid hnd1 ?_) (nodup_map_snoc htk hnd2 ?_)
           · intro r hr
             rcases List.mem_append.mp hr with hmem | hmem
             · exact List.mem_cons_of_mem _ (hid r hmem)
             · simp only [List.mem_singleton] at hmem
               subst hmem
               exact List.mem_cons_self _ _
           · intro r hr
             rcases List.mem_append.mp hr with hmem | hmem
             · exact List.mem_cons_of_mem _ (htk r hmem)
             · simp only [List.mem_singleton] at hmem
               subst hmem
               exact List.mem_cons_self _ _
           · intro hmem
             exact absurd (Or.inl hmem) (by assumption)
           · intro hmem
             exact absurd (Or.inr hmem) (by assumption))

/-! ## Lemmas: loading and formatting -/

/-- `load_epub_books` always leaves a non-empty chunk list behind. -/
theorem load_epub_books_ne_nil (b p : List IndexApi.IChunk) :
    IndexApi.load_epub_books b p ≠ [] := by
  unfold IndexApi.load_epub_books
  split_ifs with h1 h2
  · simpa [List.isEmpty_iff] using h1
  · show IndexApi.sampleBooksData ≠ []
    unfold IndexApi.sampleBooksData
    exact List.cons_ne_nil _ _
  · simpa [List.isEmpty_iff] using h2

/-- The manual formatting fallback always produces more than one entry, so
it always replaces the basic steps in the heuristic pipeline. -/
theorem manual_format_length_gt_one (t : PyStr) :
    1 < (IndexApi.manual_format_medical_text t).length := by
  unfold IndexApi.manual_format_medical_text
  set herbs := IndexApi.manualHerbTable.filterMap fun p =>
    if isSubstr p.1 (pyLower (joinWords (pySplit t))) then some p.2 else none with hherbs
  by_cases h : herbs.isEmpty
  · simp only [h, Bool.not_true, Bool.false_eq_true, if_false]
    rw [show IndexApi.practical_instructions.take 6 = IndexApi.practical_instructions
      from rfl]
    rw [show IndexApi.practical_instructions.length = 6 from rfl]
    omega
  · simp only [h, Bool.not_false, if_true]
    have hpos : 0 < herbs.length := by
      cases hh : herbs with
      | nil => rw [hh] at h; simp at h
      | cons a l => simp [hh]
    have h2 : (IndexApi.practical_instructions.take 2).length = 2 := by rfl
    simp only [List.length_take, List.length_append, h2]
    omega

/-! ## The claims -/

/-- C3: after `load_epub_books` returns, the global chunk list is non-empty,
and whenever no chunks could be parsed from EPUB files while the list was
empty, it equals the fixed list of 10 canned sample-data chunks. -/
theorem c3_load_nonempty_with_sample_fallback :
    ∀ (b p : List IndexApi.IChunk),
      IndexApi.load_epub_books b p ≠ [] ∧
      (b = [] → p = [] →
        IndexApi.load_epub_books b p = IndexApi.sampleBooksData ∧
        IndexApi.sampleBooksData.length = 10) := by
  intro b p
  refine ⟨load_epub_books_ne_nil b p, ?_⟩
  intro hb hp
  subst hb
  subst hp
  exact ⟨rfl, rfl⟩

/-- Witness for C3 at the concrete empty state. -/
theorem c3_load_nonempty_with_sample_fallback_witness :
    IndexApi.load_epub_books [] [] ≠ [] ∧
    IndexApi.load_epub_books [] [] = IndexApi.sampleBooksData :=
  ⟨(c3_load_nonempty_with_sample_fallback [] []).1,
   ((c3_load_nonempty_with_sample_fallback [] []).2 rfl rfl).1⟩

/-- C9: calling `load_epub_books` with a non-empty global chunk list leaves
it unchanged (the `if books_data: return` early exit). -/
theorem c9_load_idempotent_when_nonempty :
    ∀ (cur parsed : List IndexApi.IChunk), cur ≠ [] →
      IndexApi.load_epub_books cur parsed = cur := by
  intro cur parsed hcur
  unfold IndexApi.load_epub_books
  rw [if_pos (by simpa [List.isEmpty_iff] using hcur)]

/-- Witness for C9 at the concrete sample state. -/
theorem c9_load_idempotent_when_nonempty_witness :
    IndexApi.sampleBooksData ≠ [] ∧
    IndexApi.load_epub_books IndexApi.sampleBooksData [] =
      IndexApi.sampleBooksData :=
  ⟨load_epub_books_ne_nil [] [], c9_load_idempotent_when_nonempty _ []
    (load_epub_books_ne_nil [] [])⟩

/-- C10: both implementations of `extract_ingredients_and_steps` cap the
instruction list at 12 entries (`steps[:12]`), for every snippet and every
outcome of the AI calls. -/
theorem c10_at_most_twelve_instructions :
    (∀ (o1 : IndexApi.AIExtractOutcome) (o2 : IndexApi.AIFormatOutcome)
      (snippet : PyStr),
      (IndexApi.extract_ingredients_and_steps o1 o2 snippet).instructions.length ≤ 12) ∧
    (∀ snippet : PyStr,
      (SimpleApi.extract_ingredients_and_steps snippet).instructions.length ≤ 12) := by
  constructor
  · intro o1 o2 snippet
    show (List.take 12 _).length ≤ 12
    simp [List.length_take]
  · intro snippet
    show (List.take 12 _).length ≤ 12
    simp [List.length_take]

/-- C5 (amended): when the ingredient-extraction AI call fails in any way
(its result is the empty list: no key, a raised exception, unparsable or
non-list JSON) and the formatting AI call fails with no key or a raised
exception, `extract_ingredients_and_steps` returns exactly the heuristic
extraction result.  (When the formatting response is parsed text that fails
JSON decoding, the raw lines are used instead — see the counterexample.) -/
theorem c5_silent_fallback_to_heuristic :
    ∀ (snippet : PyStr) (o1 : IndexApi.AIExtractOutcome)
      (o2 : IndexApi.AIFormatOutcome),
      IndexApi.ai_extract_ingredients o1 = [] →
      (o2 = .noKey ∨ o2 = .apiError) →
      IndexApi.extract_ingredients_and_steps o1 o2 snippet =
        IndexApi.heuristic_extract snippet := by
  intro snippet o1 o2 h1 h2
  have hfmt : IndexApi.format_medical_text snippet o2 =
      IndexApi.manual_format_medical_text snippet := by
    rcases h2 with rfl | rfl <;> rfl
  unfold IndexApi.extract_ingredients_and_steps IndexApi.heuristic_extract
  rw [h1, hfmt]
  by_cases hs : snippet = []
  · subst hs; rfl
  · have hnb : (!snippet.isEmpty) = true := by simp [List.isEmpty_iff, hs]
    simp only [hnb, if_true]
    rfl

/-- Witness for C5 at a concrete snippet with both calls failing. -/
theorem c5_silent_fallback_to_heuristic_witness :
    IndexApi.ai_extract_ingredients .parseFail = [] ∧
    IndexApi.extract_ingredients_and_steps .parseFail .noKey (pstr "ginger tea") =
      IndexApi.heuristic_extract (pstr "ginger tea") :=
  ⟨rfl, c5_silent_fallback_to_heuristic (pstr "ginger tea") .parseFail .noKey rfl
    (Or.inl rfl)⟩

/-- C5 counterexample: when the formatting call's response JSON cannot be
parsed and the raw response has more than one non-empty line, the raw lines
replace the heuristic instructions, so the extraction result differs from
the pure regex/keyword heuristic result even though the failure was an
unparsable-JSON failure. -/
theorem c5_counterexample :
    IndexApi.ai_extract_ingredients .parseFail = [] ∧
    (IndexApi.extract_ingredients_and_steps .parseFail
        (.parseFail (pstr "lineA\nlineB")) (pstr "ginger tea")).instructions =
      [pstr "lineA", pstr "lineB"] ∧
    IndexApi.extract_ingredients_and_steps .parseFail
        (.parseFail (pstr "lineA\nlineB")) (pstr "ginger tea") ≠
      IndexApi.heuristic_extract (pstr "ginger tea") := by
  refine ⟨rfl, by rfl, ?_⟩
  decide

/-- C6: every failing `/api/search` request in `index.py` is answered
through `send_error_response`: the body is exactly
`{"ok": false, "error": <message>}` and the status code is 400 (hence in
{400, 500}); moreover every failure stems from an exception modelled by
`RequestParse.fail`, because `load_epub_books` guarantees a non-empty chunk
list (the `"No remedy data loaded."` branch is dead). -/
theorem c6_error_response_shape :
    ∀ (bb pc : List IndexApi.IChunk) (req : IndexApi.RequestParse)
      (aiF : PyStr → IndexApi.AIExtractOutcome)
      (afF : PyStr → IndexApi.AIFormatOutcome) (tag m : PyStr),
      IndexApi.handle_search bb pc req aiF afF tag = .failure m →
      IndexApi.respStatus (.failure m) = 400 ∧
      (IndexApi.respStatus (.failure m) = 400 ∨
        IndexApi.respStatus (.failure m) = 500) ∧
      IndexApi.respBody (.failure m) =
        .obj [(pstr "ok", .bool false), (pstr "error", .str m)] ∧
      ∃ e, req = .fail e ∧ m = pstr "Search error: " ++ e := by
  intro bb pc req aiF afF tag m heq
  refine ⟨rfl, Or.inl rfl, rfl, ?_⟩
  cases req with
  | fail e =>
    simp only [IndexApi.handle_search] at heq
    exact ⟨e, rfl, (IndexApi.SearchResponse.failure.inj heq).symm⟩
  | ok q k =>
    exfalso
    simp only [IndexApi.handle_search] at heq
    rw [if_neg (by
      simpa [List.isEmpty_iff] using load_epub_books_ne_nil bb pc)] at heq
    exact IndexApi.SearchResponse.noConfusion heq

/-- Witness for C6 at a concrete failing request. -/
theorem c6_error_response_shape_witness :
    IndexApi.handle_search [] [] (.fail (pstr "boom"))
        (fun _ => .noKey) (fun _ => .noKey) (pstr "YOURTAG-20") =
      .failure (pstr "Search error: boom") ∧
    IndexApi.respStatus (.failure (pstr "Search error: boom")) = 400 ∧
    IndexApi.respBody (.failure (pstr "Search error: boom")) =
      .obj [(pstr "ok", .bool false),
            (pstr "error", .str (pstr "Search error: boom"))] :=
  ⟨rfl,
   (c6_error_response_shape [] [] (.fail (pstr "boom")) (fun _ => .noKey)
     (fun _ => .noKey) (pstr "YOURTAG-20") (pstr "Search error: boom") rfl).1,
   (c6_error_response_shape [] [] (.fail (pstr "boom")) (fun _ => .noKey)
     (fun _ => .noKey) (pstr "YOURTAG-20") (pstr "Search error: boom") rfl).2.2.1⟩

/-- The conclusion of the amended C1: both `simple_text_search` functions
keep exactly the positive-scoring chunks of the loaded list, sorted in
non-increasing score order, truncated to at most `maxResults` — with
`simple.py` scoring by the keyword-count scan with fixed bonuses
(`SimpleApi.chunkScore`) and `index.py` scoring by its own phrase/book rules
(`IndexApi.chunkScore`). -/
def C1Conclusion (sbooks : List SimpleApi.SChunk) (ibooks : List IndexApi.IChunk)
    (query : PyStr) (n : Int) : Prop :=
  ((SimpleApi.simple_text_search sbooks query n).length ≤ n.toNat ∧
   (∀ c ∈ SimpleApi.simple_text_search sbooks query n, c ∈ sbooks ∧
     0 < SimpleApi.chunkScore ((pySplit (pyLower query)).eraseDups) c.text) ∧
   (SimpleApi.simple_text_search sbooks query n).Pairwise (fun a b =>
     SimpleApi.chunkScore ((pySplit (pyLower query)).eraseDups) b.text ≤
     SimpleApi.chunkScore ((pySplit (pyLower query)).eraseDups) a.text)) ∧
  ((IndexApi.simple_text_search ibooks query n).length ≤ n.toNat ∧
   (∀ c ∈ IndexApi.simple_text_search ibooks query n, c ∈ ibooks ∧
     0 < IndexApi.chunkScore (pyStrip (pyLower query))
       ((pySplit (pyStrip (pyLower query))).eraseDups) c) ∧
   (IndexApi.simple_text_search ibooks query n).Pairwise (fun a b =>
     IndexApi.chunkScore (pyStrip (pyLower query))
       ((pySplit (pyStrip (pyLower query))).eraseDups) b ≤
     IndexApi.chunkScore (pyStrip (pyLower query))
       ((pySplit (pyStrip (pyLower query))).eraseDups) a))

/-- C1 (amended): for non-negative `max_results`, both search functions
include only positive-scoring chunks, sort them in non-increasing score
order and return at most `max_results`; `simple.py`'s score is the linear
keyword-count scan with the fixed +5/+3 bonuses, while `index.py`'s score
adds exact-phrase, proximity and book-priority rules (the counterexample
shows the two disagree). -/
theorem c1_search_scores_filters_sorts_truncates :
    ∀ (sbooks : List SimpleApi.SChunk) (ibooks : List IndexApi.IChunk)
      (query : PyStr) (n : Int), 0 ≤ n → C1Conclusion sbooks ibooks query n := by
  intro sbooks ibooks query n hn
  unfold C1Conclusion
  rw [simple_search_eq_pipeline, index_search_eq_pipeline]
  exact ⟨⟨searchPipeline_length_le hn, fun c hc => searchPipeline_mem hc,
    searchPipeline_sorted _ _ _⟩,
   ⟨searchPipeline_length_le hn, fun c hc => searchPipeline_mem hc,
    searchPipeline_sorted _ _ _⟩⟩

/-- Witness for C1 at a concrete state and query. -/
theorem c1_search_scores_filters_sorts_truncates_witness :
    (0 : Int) ≤ 5 ∧
    C1Conclusion [⟨pstr "c", 0, pstr "water remedy ingredient"⟩]
      [⟨pstr "1.epub", pstr "c", 0, pstr "water remedy ingredient"⟩]
      (pstr "water") 5 :=
  ⟨by decide, c1_search_scores_filters_sorts_truncates _ _ (pstr "water") 5
    (by decide)⟩

/-- C1 counterexample: `index.py`'s `simple_text_search` does not score by
the linear keyword-count scan with fixed bonuses — on two concrete chunks
its score disagrees with that scan (88 vs 11), and its phrase and
book-priority rules order the two chunks opposite to the keyword-count
ranking. -/
theorem c1_counterexample :
    IndexApi.chunkScore (pstr "water") [pstr "water"]
        ⟨pstr "x", pstr "c", 0, pstr "water water water remedy ingredient"⟩ ≠
      SimpleApi.chunkScore [pstr "water"]
        (pstr "water water water remedy ingredient") ∧
    IndexApi.simple_text_search
        [⟨pstr "x", pstr "c", 0, pstr "water water water remedy ingredient"⟩,
         ⟨pstr "1.epub", pstr "c", 1, pstr "water remedy ingredient"⟩]
        (pstr "water") 5 =
      [⟨pstr "1.epub", pstr "c", 1, pstr "water remedy ingredient"⟩,
       ⟨pstr "x", pstr "c", 0, pstr "water water water remedy ingredient"⟩] ∧
    SimpleApi.simple_text_search
        [⟨pstr "c", 0, pstr "water water water remedy ingredient"⟩,
         ⟨pstr "c2", 1, pstr "water remedy ingredient"⟩]
        (pstr "water") 5 =
      [⟨pstr "c", 0, pstr "water water water remedy ingredient"⟩,
       ⟨pstr "c2", 1, pstr "water remedy ingredient"⟩] := by
  refine ⟨by decide, by rfl, by rfl⟩

/-- C2 (amended): a successful `/api/search` response is
`{ok: true, remedies: [...]}` with at most `max(k, 1)` remedies in
`index.py`'s handler (hence at most `k` whenever `k ≥ 1`; for `k ≤ 0` one
remedy may still be returned), and at most `min(2k, 3)` remedies in the
FastAPI variant for non-negative `k`. -/
theorem c2_success_remedy_count_bound :
    (∀ (bb pc : List IndexApi.IChunk) (q : PyStr) (k : Int)
      (aiF : PyStr → IndexApi.AIExtractOutcome)
      (afF : PyStr → IndexApi.AIFormatOutcome) (tag : PyStr)
      (rs : List IndexApi.IndexRemedy),
      IndexApi.handle_search bb pc (.ok q k) aiF afF tag = .success rs →
      IndexApi.respBody (.success rs) =
        .obj [(pstr "ok", .bool true),
              (pstr "remedies", .arr (rs.map IndexApi.indexRemedyJson))] ∧
      rs.length ≤ (max k 1).toNat) ∧
    (∀ (books : List SimpleApi.SChunk) (q : PyStr) (k : Int) (tag : PyStr)
      (rs : List SimpleApi.SimpleRemedy), 0 ≤ k →
      SimpleApi.search books q k tag = .success rs →
      rs.length ≤ min (k * 2).toNat 3) := by
  constructor
  · intro bb pc q k aiF afF tag rs heq
    refine ⟨rfl, ?_⟩
    simp only [IndexApi.handle_search] at heq
    split_ifs at heq with hempty <;>
      first
        | exact IndexApi.SearchResponse.noConfusion heq
        | (have hrs := IndexApi.SearchResponse.success.inj heq
           rw [← hrs]
           exact indexSearchLoop_length_le _ _ _ _ _ _ _ _ _ _ _ (Or.inr rfl))
  · intro books q k tag rs hk heq
    simp only [SimpleApi.search] at heq
    split_ifs at heq with hempty <;>
      first
        | exact SimpleApi.SimpleResponse.noConfusion heq
        | (have hrs := SimpleApi.SimpleResponse.success.inj heq
           rw [← hrs]
           refine le_min ?_ (simpleSearchLoop_le_three tag _ [] (by simp))
           refine le_trans (simpleSearchLoop_le_chunks tag _ []) ?_
           simp only [List.length_nil, Nat.zero_add]
           rw [simple_search_eq_pipeline]
           exact searchPipeline_length_le (by omega))

/-- The concrete state of the C2 counterexample and witness runs: three
tiny chunks as loaded from `1.epub`. -/
def c2Books : List IndexApi.IChunk :=
  [⟨pstr "1.epub", pstr "c", 0, pstr "tea cure"⟩,
   ⟨pstr "1.epub", pstr "c", 1, pstr "tea heal"⟩,
   ⟨pstr "1.epub", pstr "c", 2, pstr "tea remedy"⟩]

/-- The remedies of the concrete `k = -1` run. -/
def c2xRemedies : List IndexApi.IndexRemedy :=
  match IndexApi.handle_search [] c2Books (.ok (pstr "tea") (-1))
      (fun _ => .noKey) (fun _ => .noKey) (pstr "YOURTAG-20") with
  | .success rs => rs
  | .failure _ => []

/-- C2 counterexample: with the body `{q: "tea", k: -1}` (an `int`), the
`index.py` handler succeeds with one remedy — more than `k`. -/
theorem c2_counterexample :
    IndexApi.handle_search [] c2Books (.ok (pstr "tea") (-1))
        (fun _ => .noKey) (fun _ => .noKey) (pstr "YOURTAG-20") =
      .success c2xRemedies ∧
    c2xRemedies.length = 1 ∧ ¬((c2xRemedies.length : Int) ≤ -1) := by
  refine ⟨rfl, by rfl, ?_⟩
  rw [show c2xRemedies.length = 1 from rfl]
  decide

/-- The remedies of the concrete `k = 5` witness run. -/
def c2wRemedies : List IndexApi.IndexRemedy :=
  match IndexApi.handle_search [] c2Books (.ok (pstr "tea") 5)
      (fun _ => .noKey) (fun _ => .noKey) (pstr "YOURTAG-20") with
  | .success rs => rs
  | .failure _ => []

/-- Witness for C2 at concrete runs of both handlers. -/
theorem c2_success_remedy_count_bound_witness :
    (IndexApi.handle_search [] c2Books (.ok (pstr "tea") 5)
        (fun _ => .noKey) (fun _ => .noKey) (pstr "YOURTAG-20") =
      .success c2wRemedies ∧
     c2wRemedies.length ≤ (max (5 : Int) 1).toNat) ∧
    ((0 : Int) ≤ 2 ∧
     SimpleApi.search [⟨pstr "c", 0, pstr "x"⟩] (pstr "q") 2 (pstr "YOURTAG-20") =
       .success [] ∧
     ([] : List SimpleApi.SimpleRemedy).length ≤ min ((2 : Int) * 2).toNat 3) :=
  ⟨⟨rfl, (c2_success_remedy_count_bound.1 [] c2Books (pstr "tea") 5
      (fun _ => .noKey) (fun _ => .noKey) (pstr "YOURTAG-20") c2wRemedies rfl).2⟩,
   ⟨by decide, by rfl,
    c2_success_remedy_count_bound.2 [⟨pstr "c", 0, pstr "x"⟩] (pstr "q") 2
      (pstr "YOURTAG-20") [] (by decide) rfl⟩⟩

/-- C8: within one successful `/api/search` response of `index.py`, the
remedy ids are pairwise distinct and the normalised title keys are pairwise
distinct — candidates whose id or title key was already emitted are
suppressed via the `used_remedy_ids`/`used_titles` sets. -/
theorem c8_response_ids_pairwise_distinct :
    ∀ (bb pc : List IndexApi.IChunk) (q : PyStr) (k : Int)
      (aiF : PyStr → IndexApi.AIExtractOutcome)
      (afF : PyStr → IndexApi.AIFormatOutcome) (tag : PyStr)
      (rs : List IndexApi.IndexRemedy),
      IndexApi.handle_search bb pc (.ok q k) aiF afF tag = .success rs →
      ((rs.map fun r => r.id).Nodup ∧
       (rs.map fun r => IndexApi.titleKey r.title).Nodup) := by
  intro bb pc q k aiF afF tag rs heq
  simp only [IndexApi.handle_search] at heq
  split_ifs at heq with hempty <;>
    first
      | exact IndexApi.SearchResponse.noConfusion heq
      | (have hrs := IndexApi.SearchResponse.success.inj heq
         rw [← hrs]
         exact indexSearchLoop_nodup _ _ _ _ _ _ _ _ _ _ _
           (by simp) (by simp) (by simp) (by simp))

/-- Witness for C8 at a concrete successful run. -/
theorem c8_response_ids_pairwise_distinct_witness :
    (IndexApi.handle_search [] c2Books (.ok (pstr "tea") 5)
        (fun _ => .noKey) (fun _ => .noKey) (pstr "YOURTAG-20") =
      .success c2wRemedies) ∧
    ((c2wRemedies.map fun r => r.id).Nodup ∧
     (c2wRemedies.map fun r => IndexApi.titleKey r.title).Nodup) :=
  ⟨rfl, c8_response_ids_pairwise_distinct [] c2Books (pstr "tea") 5
    (fun _ => .noKey) (fun _ => .noKey) (pstr "YOURTAG-20") c2wRemedies rfl⟩

/-- The conclusion of the amended C4 for a given text and parameters:
`simple.py`'s `chunk_words` (and therefore also `index.py`'s whenever the
numbered-section pattern does not match) emits the sliding windows over the
word sequence: contiguous slices in original order starting at arithmetic
positions `0, mw-ol, 2(mw-ol), …`, each at most `mw` words, consecutive
chunks sharing exactly the `ol` boundary words, and every input word
appearing in some chunk. -/
def C4Conclusion (text : PyStr) (mw ol : Nat) : Prop :=
  (∃ starts : List Nat,
    SimpleApi.chunk_words text mw ol =
      starts.map (fun s => joinWords (((pySplit text).drop s).take mw)) ∧
    starts.Chain' (fun a b => b = a + (mw - ol)) ∧
    (pySplit text = [] → starts = []) ∧
    (pySplit text ≠ [] → starts.head? = some 0)) ∧
  (∀ c ∈ SimpleApi.chunk_words text mw ol, (pySplit c).length ≤ mw) ∧
  (∀ (n : Nat) (hn : n < (pySplit text).length),
    ∃ c ∈ SimpleApi.chunk_words text mw ol,
      (pySplit text).get ⟨n, hn⟩ ∈ pySplit c) ∧
  (SimpleApi.chunk_words text mw ol).Chain' (fun c1 c2 =>
    (pySplit c1).drop (mw - ol) = (pySplit c2).take ol) ∧
  (IndexApi.sectionFound text = false →
    IndexApi.chunk_words text mw ol = SimpleApi.chunk_words text mw ol)

/-- C4 (amended): for `overlap < max_words`, the word-window `chunk_words`
(`simple.py` always; `index.py` when no numbered-section heading matches)
returns overlapping sliding windows covering every input word; when the
section pattern matches, `index.py` instead returns section chunks that can
drop words (see the counterexample). -/
theorem c4_chunk_words_sliding_windows :
    ∀ (text : PyStr) (mw ol : Nat), ol < mw → C4Conclusion text mw ol := by
  intro text mw ol hd
  have hclean := pySplit_words_clean text
  set ws := pySplit text with hws
  have hsplit_slice : ∀ s : Nat, pySplit (joinWords ((ws.drop s).take mw)) =
      (ws.drop s).take mw := by
    intro s
    refine pySplit_joinWords _ ?_
    intro w hw
    exact hclean w (List.take_subset _ _ hw |> List.drop_subset _ _)
  obtain ⟨starts, hmap, hchain, hhead⟩ := slideAux_starts ws mw ol (ws.length + 1) 0
  have hcw : SimpleApi.chunk_words text mw ol =
      starts.map (fun s => joinWords ((ws.drop s).take mw)) := hmap
  refine ⟨⟨starts, hcw, hchain, ?_, ?_⟩, ?_, ?_, ?_, ?_⟩
  · intro hnil
    rcases hhead with h | h
    · exact h
    · exfalso
      have hempty : SimpleApi.chunk_words text mw ol = [] := by
        show slideAux ws mw ol (ws.length + 1) 0 = []
        rw [hws.trans hnil]
        rfl
      rw [hempty] at hcw
      rcases starts with _ | ⟨s, rest⟩
      · simp at h
      · simp at hcw
  · intro hne
    rcases hhead with h | h
    · exfalso
      rw [h] at hcw
      have h0 : 0 < ws.length := List.length_pos.mpr (hws ▸ hne)
      have hnonempty : SimpleApi.chunk_words text mw ol ≠ [] := by
        show slideAux ws mw ol (ws.length + 1) 0 ≠ []
        simp only [slideAux, h0, if_true]
        split_ifs <;> simp
      rw [hcw] at hnonempty
      simp at hnonempty
    · exact h
  · intro c hc
    rw [hcw] at hc
    obtain ⟨s, _, hfs⟩ := List.mem_map.mp hc
    rw [← hfs, hsplit_slice]
    simp only [List.length_take]
    omega
  · intro n hn
    have hfuel : ws.length - 0 ≤ (ws.length + 1) * (mw - ol) := by
      have h1 : 1 ≤ mw - ol := by omega
      calc ws.length - 0 ≤ (ws.length + 1) * 1 := by omega
        _ ≤ (ws.length + 1) * (mw - ol) := Nat.mul_le_mul_left _ h1
    obtain ⟨s, hs1, hs2, hs3⟩ :=
      slideAux_covers ws mw ol hd (ws.length + 1) 0 n (Nat.zero_le n) hn hfuel
    refine ⟨joinWords ((ws.drop s).take mw), hs3, ?_⟩
    rw [hsplit_slice]
    exact get_mem_window ws mw s n hn hs1 hs2
  · rw [hcw]
    rw [List.chain'_map]
    refine hchain.imp ?_
    intro a b hab
    subst hab
    rw [hsplit_slice, hsplit_slice]
    rw [List.drop_take, List.drop_drop]
    have h1 : mw - (mw - ol) = ol := by omega
    rw [h1]
    rw [List.take_take]
    have h2 : min ol mw = ol := by omega
    rw [h2]
  · intro hfound
    simp only [IndexApi.chunk_words, hfound, Bool.false_eq_true, if_false]
    rfl

/-- Witness for C4 at a concrete five-word text with window 3 and overlap 1. -/
theorem c4_chunk_words_sliding_windows_witness :
    1 < 3 ∧ C4Conclusion (pstr "a b c d e") 3 1 :=
  ⟨by decide, c4_chunk_words_sliding_windows (pstr "a b c d e") 3 1 (by decide)⟩

/-- C4 counterexample: on a text matching the numbered-section pattern,
`index.py`'s `chunk_words` (with its default parameters `1200 > 200 ≥ 0`)
returns a single section chunk that drops the word `PRE` preceding the first
section heading, so not every input word appears in some chunk — and the
chunk is not a contiguous slice of the input words either (`x.` is split
into `x` and `.`). -/
theorem c4_counterexample :
    200 < 1200 ∧
    IndexApi.chunk_words (pstr "PRE 1. A remedy x. B C.") 1200 200 =
      [pstr "1. A remedy x . B C."] ∧
    pstr "PRE" ∈ pySplit (pstr "PRE 1. A remedy x. B C.") ∧
    pstr "PRE" ∉ pySplit (pstr "1. A remedy x . B C.") := by
  exact ⟨by decide, by rfl, by decide, by decide⟩

/-- C7 (amended): every remedy returned by `POST /api/search` carries an id
that is the first 12 hex characters of the MD5 of
`chunk["text"][:200] + title` (the first 200 characters of the matched
chunk's text concatenated with the remedy title) in `index.py`, and of
`chunk["chapter"] + str(chunk["pos"])` — not of the text at all — in the
FastAPI variant. -/
theorem c7_remedy_id_is_truncated_md5 :
    (∀ (bb pc : List IndexApi.IChunk) (q : PyStr) (k : Int)
      (aiF : PyStr → IndexApi.AIExtractOutcome)
      (afF : PyStr → IndexApi.AIFormatOutcome) (tag : PyStr)
      (rs : List IndexApi.IndexRemedy),
      IndexApi.handle_search bb pc (.ok q k) aiF afF tag = .success rs →
      ∀ r ∈ rs, ∃ c ∈ IndexApi.load_epub_books bb pc,
        r.id = (MD5.md5Hex (c.text.take 200 ++ r.title)).take 12) ∧
    (∀ (books : List SimpleApi.SChunk) (q : PyStr) (k : Int) (tag : PyStr)
      (rs : List SimpleApi.SimpleRemedy),
      SimpleApi.search books q k tag = .success rs →
      ∀ r ∈ rs, ∃ c ∈ books,
        r.id = (MD5.md5Hex (c.chapter ++ natStr c.pos)).take 12) := by
  constructor
  · intro bb pc q k aiF afF tag rs heq
    have hsub : ∀ c ∈ IndexApi.simple_text_search
        (IndexApi.load_epub_books bb pc) q (k * 2),
        c ∈ IndexApi.load_epub_books bb pc := by
      intro c hc
      rw [index_search_eq_pipeline] at hc
      exact (searchPipeline_mem hc).1
    simp only [IndexApi.handle_search] at heq
    split_ifs at heq with hempty <;>
      first
        | exact IndexApi.SearchResponse.noConfusion heq
        | (have hrs := IndexApi.SearchResponse.success.inj heq
           rw [← hrs]
           exact indexSearchLoop_id_shape _ _ _ _ _ _ _ _ _ _ _ _ hsub (by simp))
  · intro books q k tag rs heq
    have hsub : ∀ c ∈ SimpleApi.simple_text_search books q (k * 2), c ∈ books := by
      intro c hc
      rw [simple_search_eq_pipeline] at hc
      exact (searchPipeline_mem hc).1
    simp only [SimpleApi.search] at heq
    split_ifs at heq with hempty <;>
      first
        | exact SimpleApi.SimpleResponse.noConfusion heq
        | (have hrs := SimpleApi.SimpleResponse.success.inj heq
           rw [← hrs]
           exact simpleSearchLoop_id_shape _ _ _ _ hsub (by simp))

/-- Witness for C7 at the concrete `k = 5` run. -/
theorem c7_remedy_id_is_truncated_md5_witness :
    (IndexApi.handle_search [] c2Books (.ok (pstr "tea") 5)
        (fun _ => .noKey) (fun _ => .noKey) (pstr "YOURTAG-20") =
      .success c2wRemedies) ∧
    ∀ r ∈ c2wRemedies, ∃ c ∈ IndexApi.load_epub_books [] c2Books,
      r.id = (MD5.md5Hex (c.text.take 200 ++ r.title)).take 12 :=
  ⟨rfl, c7_remedy_id_is_truncated_md5.1 [] c2Books (pstr "tea") 5
    (fun _ => .noKey) (fun _ => .noKey) (pstr "YOURTAG-20") c2wRemedies rfl⟩

/-- All contiguous substrings of a string (every snippet of a chunk text). -/
def allSubstrs (s : PyStr) : List PyStr :=
  (List.range (s.length + 1)).flatMap fun i =>
    (List.range (s.length + 1 - i)).map fun n => (s.drop i).take n

/-- The remedies of the concrete single-chunk `k = 5` run used to refute C7
as stated. -/
def c7xRemedies : List IndexApi.IndexRemedy :=
  match IndexApi.handle_search [] [⟨pstr "1.epub", pstr "c", 0, pstr "tea cure"⟩]
      (.ok (pstr "tea") 5) (fun _ => .noKey) (fun _ => .noKey)
      (pstr "YOURTAG-20") with
  | .success rs => rs
  | .failure _ => []

/-- C7 counterexample: the single returned remedy's id (built from
`text[:200] + "Traditional approach for tea"`, which includes the query) is
not the truncated MD5 of any snippet (contiguous substring) of the matched
chunk's text `"tea cure"`. -/
theorem c7_counterexample :
    IndexApi.handle_search [] [⟨pstr "1.epub", pstr "c", 0, pstr "tea cure"⟩]
        (.ok (pstr "tea") 5) (fun _ => .noKey) (fun _ => .noKey)
        (pstr "YOURTAG-20") = .success c7xRemedies ∧
    c7xRemedies.length = 1 ∧
    ((allSubstrs (pstr "tea cure")).all fun s =>
      c7xRemedies.all fun r => !((MD5.md5Hex s).take 12 == r.id)) = true := by
  exact ⟨rfl, by rfl, by rfl⟩

end MedsVerify
